import Mathlib

/-!
Shallow embedding of the analytics pipeline of a social-media dashboard
(data_loader.py, analytics.py, and the filter function of app.py), together
with theorems settling the specification claims about it.

Modelling conventions, used throughout:
* pandas DataFrames of posts are lists of `Post` records; DataFrame-valued
  results whose column set varies between code paths are modelled as a
  structure carrying an explicit `cols : List String` field.
* Timestamps are integral Unix epoch seconds (`Int`); `datetime.fromtimestamp`
  is modelled in UTC, a calendar day is `fdiv t 86400`, and weekday names are
  derived from the epoch day (1970-01-01 was a Thursday).
* Python string lowering is modelled on the ASCII range (`Char.toLower`),
  which covers every string manipulated by the claims.
* `pandas.Series.str.contains(pat)` defaults to regex=True, so the pattern
  is a regular expression and an invalid pattern raises re.error. The
  filter engine models this with an exact fragment of Python regex syntax
  (sequences of literal characters and the `.` wildcard): patterns inside
  the fragment are searched with genuine regex semantics, and every
  pattern outside it — the invalid ones that raise as well as the valid
  but unmodelled operators — is a fallible (`none`) result, never
  silently treated as a literal. For metacharacter-free patterns regex
  search provably coincides with substring search (tokLitSearch); the
  keyword-time-series site receives only such patterns (alphabetic tokens
  of get_top_keywords, app.py lines 203-204) and is modelled with the
  substring test directly.
* Where pandas sorts with an unstable kind (`sort_values`, default
  quicksort), tie order is implementation-defined in the source; the
  embedding uses a deterministic insertion sort, one admissible choice.
-/

/-- Lower-case one character (ASCII range), modelling Python str.lower
per character. -/
def lowerChar (c : Char) : Char := Char.toLower c

/-- Lower-case a string, modelling Python str.lower (ASCII range). -/
def lowerStr (s : String) : String := String.mk (s.data.map lowerChar)

/-- Does the character list contain `pat` as a contiguous sublist?
Models Python substring membership. -/
def subChars (pat : List Char) : List Char → Bool
  | [] => pat.isEmpty
  | c :: rest => pat.isPrefixOf (c :: rest) || subChars pat rest

/-- Literal substring test `pat in s` (Python `in`). This is the
specification side of the claims that speak of a "substring test", and
the model of `Series.str.contains` at the one call site whose patterns
are always metacharacter-free (see getKeywordTimeSeries); on such
patterns it coincides with the regex search below (tokLitSearch). -/
def strContains (s pat : String) : Bool := subChars pat.data s.data

/-- One token of the modelled regular-expression fragment: a literal
character or the `.` wildcard. -/
inductive PatTok where
  | lit (c : Char)
  | dot
deriving DecidableEq

/-- The metacharacters of Python regex syntax. -/
def reMetachars : List Char :=
  ['.', '^', '$', '*', '+', '?', '\x7b', '\x7d', '[', ']', '\\', '|', '(', ')']

/-- Parse a pattern of the modelled regex fragment: a sequence of literal
characters and `.` wildcards. Any pattern using another metacharacter is
`none` — the invalid patterns on which re.compile raises re.error (such
as "(") as well as syntactically valid but unmodelled operators (such as
"a*"); neither is ever treated as a literal. -/
def parsePattern : List Char → Option (List PatTok)
  | [] => some []
  | c :: rest =>
    if c = '.' then (parsePattern rest).map (fun ts => PatTok.dot :: ts)
    else if c ∈ reMetachars then none
    else (parsePattern rest).map (fun ts => PatTok.lit c :: ts)

/-- Does the token sequence match starting exactly at the head of the
text? A literal token matches its character; `.` matches any character
except a newline (no re.DOTALL in the source). -/
def toksMatchPre : List PatTok → List Char → Bool
  | [], _ => true
  | _ :: _, [] => false
  | PatTok.lit c :: ts, x :: xs => decide (x = c) && toksMatchPre ts xs
  | PatTok.dot :: ts, x :: xs => decide (x ≠ '\n') && toksMatchPre ts xs

/-- re.search semantics for the fragment: try a match at every position.
`Series.str.contains(pat)` with the default regex=True reports exactly
whether such a search succeeds. -/
def toksSearch (ts : List PatTok) : List Char → Bool
  | [] => toksMatchPre ts []
  | x :: xs => toksMatchPre ts (x :: xs) || toksSearch ts xs

/-- Lexicographic comparison of character lists by codepoint. -/
def charListLt : List Char → List Char → Bool
  | [], [] => false
  | [], _ :: _ => true
  | _ :: _, [] => false
  | a :: as, b :: bs =>
    if a.toNat < b.toNat then true
    else if b.toNat < a.toNat then false
    else charListLt as bs

/-- Lexicographic string order (codepoint order, as pandas sorts its
string group keys). -/
def strLtB (a b : String) : Bool := charListLt a.data b.data

/-- Word characters of the regex class \w (ASCII fragment). -/
def isWordChar (c : Char) : Bool := c.isAlphanum || c = '_'

/-- Maximal runs of word characters, accumulator version; the accumulator
holds the current run reversed. -/
def wordRunsAux : List Char → List Char → List (List Char)
  | cur, [] => if cur.isEmpty then [] else [cur.reverse]
  | cur, c :: rest =>
    if isWordChar c then wordRunsAux (c :: cur) rest
    else if cur.isEmpty then wordRunsAux [] rest
    else cur.reverse :: wordRunsAux [] rest

/-- Maximal runs of word characters in a character list. -/
def wordRuns (l : List Char) : List (List Char) := wordRunsAux [] l

/-- Tokenization of analytics.py line 99:
`re.findall(r'\b[a-zA-Z]{3,}\b', all_text.lower())`.
A match of that pattern is exactly a maximal \w-run that consists of
alphabetic characters only and has length at least 3 (the word boundaries
forbid any adjacent digit or underscore, so mixed runs yield no match). -/
def findWords (s : String) : List String :=
  ((wordRuns (lowerStr s).data).filter
    (fun r => r.all Char.isAlpha && decide (3 ≤ r.length))).map String.mk

/-- The fixed stop-word set of analytics.py lines 102-115. -/
def stop_words : List String :=
  ["the", "and", "or", "but", "in", "on", "at", "to", "for", "of",
   "with", "by", "from", "up", "about", "into", "through", "during",
   "before", "after", "above", "below", "between", "among", "this",
   "that", "these", "those", "are", "was", "were", "been", "being",
   "have", "has", "had", "do", "does", "did", "will", "would", "could",
   "should", "may", "might", "must", "can", "shall", "not", "what",
   "when", "where", "why", "how", "all", "any", "both", "each",
   "few", "more", "most", "other", "some", "such", "only", "own",
   "same", "so", "than", "too", "very", "just", "now", "here",
   "there", "then", "them", "they", "their", "his", "her", "its",
   "our", "your", "you", "we", "he", "she", "it", "me", "him",
   "us", "my", "mine", "yours", "ours", "theirs"]

/-- First-occurrence deduplication (keeps the first copy of each element,
in order). -/
def firstDedup {α : Type} [DecidableEq α] : List α → List α
  | [] => []
  | a :: l => a :: (firstDedup l).filter (fun b => decide (b ≠ a))

/-- Occurrence counts keyed by first-occurrence order, modelling
`collections.Counter` built from a list (Python dicts iterate in
insertion order). -/
def countBy {α : Type} [DecidableEq α] (l : List α) : List (α × Nat) :=
  (firstDedup l).map (fun k => (k, l.count k))

/-- Insert into a list, placing `a` before the first element `b` with
`bf a b = true`. -/
def insertBy {α : Type} (bf : α → α → Bool) (a : α) : List α → List α
  | [] => [a]
  | b :: l => if bf a b then a :: b :: l else b :: insertBy bf a l

/-- Insertion sort by a comes-before test; the deterministic stand-in for
pandas `sort_values` / `Counter.most_common` ordering (tie order between
equal keys is implementation-defined in the source). -/
def sortBy {α : Type} (bf : α → α → Bool) : List α → List α
  | [] => []
  | a :: l => insertBy bf a (sortBy bf l)

/-- One JSON scalar as it may appear in a timestamp field of the feed. -/
inductive JVal where
  | num (n : Int)
  | str (s : String)
  | jnull
deriving DecidableEq

/-- One raw record of the JSONL feed, after the data-envelope unwrapping of
data_loader.py lines 41-44; `none` marks an absent key. Only the recognized
input fields (spec section 6) are carried. -/
structure RawPost where
  id : Option String
  title : Option String
  selftext : Option String
  author : Option String
  subreddit : Option String
  score : Option Int
  num_comments : Option Int
  url : Option String
  created_utc : Option JVal
  created : Option JVal
deriving DecidableEq

/-- data_loader.py line 96:
`post.get('created_utc', post.get('created', None))`. A present key returns
its stored value (even an explicit JSON null); only a missing key falls
through to the fallback field. -/
def resolvedTimestamp (p : RawPost) : Option JVal :=
  match p.created_utc with
  | some v => some v
  | none => p.created

/-- Python truthiness of the resolved timestamp value
(data_loader.py line 97, `if timestamp:`): absent, null, numeric zero and
the empty string are falsy. -/
def jTruthy : Option JVal → Bool
  | none => false
  | some JVal.jnull => false
  | some (JVal.num n) => decide (n ≠ 0)
  | some (JVal.str s) => !s.isEmpty

/-- Value of a nonempty decimal digit string. -/
def digitsVal : List Char → Option Nat
  | [] => none
  | c :: rest =>
    if c.isDigit then
      match rest with
      | [] => some (c.toNat - 48)
      | _ :: _ => (digitsVal rest).map (fun v => (c.toNat - 48) * 10 ^ rest.length + v)
    else none

/-- Python `float(s)` for an integral decimal string with an optional sign;
other strings fail. Numeric strings with a fractional part or exponent are
outside the modelled fragment (the feed carries integral epochs), and a
failure models the ValueError caught at data_loader.py line 101. -/
def parseNumStr (s : String) : Option Int :=
  match s.data with
  | '-' :: rest => (digitsVal rest).map (fun n => -(n : Int))
  | '+' :: rest => (digitsVal rest).map (fun n => (n : Int))
  | l => (digitsVal l).map (fun n => (n : Int))

/-- Python `float(timestamp)` on a JSON scalar: numbers pass through,
strings are parsed, null raises (TypeError, caught at line 101). -/
def parseTimestampVal : JVal → Option Int
  | JVal.num n => some n
  | JVal.str s => parseNumStr s
  | JVal.jnull => none

/-- The created_at computation of data_loader.py lines 96-104: resolve the
timestamp field, test truthiness, then attempt conversion; every failure
path stores null. -/
def extractCreatedAt (p : RawPost) : Option Int :=
  let timestamp := resolvedTimestamp p
  if jTruthy timestamp then
    match timestamp with
    | some v => parseTimestampVal v
    | none => none
  else
    none

/-- One normalized post record (the row type of the loaded DataFrame).
The pattern-extraction columns hashtags / mentions / domains and the
derived date / hour / day_of_week columns are not carried: no claim
mentions them, and the date parts are recomputed from created_at where
needed. `combined_text` is the column added by preprocess_data (empty
before preprocessing). -/
structure Post where
  id : String
  title : String
  text : String
  author : String
  platform : String
  subreddit : String
  score : Int
  num_comments : Int
  url : String
  created_at : Option Int
  combined_text : String
deriving DecidableEq

/-- Field extraction of data_loader.py lines 81-119 (_extract_post_fields):
every access defaults explicitly; platform is the constant "reddit". -/
def extractPostFields (p : RawPost) : Post :=
  { id := p.id.getD ""
    title := p.title.getD ""
    text := p.selftext.getD ""
    author := p.author.getD "unknown"
    platform := "reddit"
    subreddit := p.subreddit.getD ""
    score := p.score.getD 0
    num_comments := p.num_comments.getD 0
    url := p.url.getD ""
    created_at := extractCreatedAt p
    combined_text := "" }

/-- Deduplication by id keeping the first occurrence, modelling
`df.drop_duplicates(subset=['id'], keep='first')`
(data_loader.py lines 65-66). -/
def dedupById : List Post → List Post
  | [] => []
  | p :: l => p :: (dedupById l).filter (fun q => decide (q.id ≠ p.id))

/-- The row accumulation of load_jsonl (data_loader.py lines 31-56) over a
pre-parsed line sequence: a `none` entry is a malformed JSON line (skipped
with a warning); a `some` entry is the unwrapped record of a well-formed
line. Extraction never signals unusable in the modelled total fragment, so
every parsed line contributes a row. -/
def parsedRecords (ls : List (Option RawPost)) : List Post :=
  ls.filterMap (fun o => o.map extractPostFields)

/-- load_jsonl proper: the accumulated rows, deduplicated by id. -/
def load_jsonl (ls : List (Option RawPost)) : List Post :=
  dedupById (parsedRecords ls)

/-- The per-record effect of preprocess_data (data_loader.py lines 170-185):
rows with a null created_at are dropped (`dropna(subset=['created_at'])`),
and the surviving rows get
`combined_text = (title + ' ' + text).lower()`. -/
def toCorpusPost (p : Post) : Option Post :=
  match p.created_at with
  | none => none
  | some _ => some { p with combined_text := lowerStr (p.title ++ " " ++ p.text) }

/-- preprocess_data over the loaded rows. -/
def preprocess_data (l : List Post) : List Post := l.filterMap toCorpusPost

/-- load_and_preprocess_data: the corpus construction pipeline. -/
def load_and_preprocess (ls : List (Option RawPost)) : List Post :=
  preprocess_data (load_jsonl ls)

/-- Epoch day of a timestamp (the date portion, UTC model). -/
def epochDay (t : Int) : Int := Int.fdiv t 86400

/-- Day bucket of a post, null-propagating like `.dt.date` on NaT. -/
def postDay (p : Post) : Option Int := p.created_at.map epochDay

/-- The canonical weekday names, Monday first
(analytics.py line 283). -/
def dayNames : List String :=
  ["Monday", "Tuesday", "Wednesday", "Thursday", "Friday", "Saturday", "Sunday"]

/-- Weekday name of a timestamp, modelling `.dt.day_name()`:
1970-01-01 (epoch day 0) was a Thursday, Monday-based index 3. -/
def dayNameOf (t : Int) : String :=
  dayNames.getD ((epochDay t + 3).emod 7).toNat ""

/-- Keyword stage of apply_filters (app.py lines 67-70): an empty
keyword_filter string is falsy and skips the stage; otherwise
`str.contains(keyword_filter.lower(), na=False)` interprets the lowered
keyword as a regular expression (default regex=True) and keeps the rows
in which a regex search of it succeeds. A keyword outside the modelled
regex fragment is a `none` result: it covers both the invalid patterns
on which the source raises re.error and the unmodelled operators. -/
def keywordStage (keyword_filter : String) (d : List Post) : Option (List Post) :=
  if !keyword_filter.isEmpty then
    match parsePattern (lowerStr keyword_filter).data with
    | some ts => some (d.filter (fun p => toksSearch ts p.combined_text.data))
    | none => none
  else some d

/-- Date stage of apply_filters (app.py lines 73-78): a missing date_range
skips the stage (the UI passes a 2-tuple or nothing); otherwise keep rows
whose date portion lies inclusively between the bounds (epoch days); a
null created_at compares false, like NaT. -/
def dateStage (date_range : Option (Int × Int)) (d : List Post) : List Post :=
  match date_range with
  | some (s, e) =>
      d.filter (fun p =>
        match p.created_at with
        | some t => decide (s ≤ epochDay t) && decide (epochDay t ≤ e)
        | none => false)
  | none => d

/-- Platform stage of apply_filters (app.py lines 81-82): an empty or "All"
string skips the stage. -/
def platformStage (platform_filter : String) (d : List Post) : List Post :=
  if !platform_filter.isEmpty && platform_filter ≠ "All" then
    d.filter (fun p => decide (p.platform = platform_filter))
  else d

/-- Subreddit stage of apply_filters (app.py lines 85-86): an empty or
"All" string skips the stage. -/
def subredditStage (subreddit_filter : String) (d : List Post) : List Post :=
  if !subreddit_filter.isEmpty && subreddit_filter ≠ "All" then
    d.filter (fun p => decide (p.subreddit = subreddit_filter))
  else d

/-- apply_filters of app.py lines 62-88: the four sequential narrowing
reassignments of filtered_data, applied in source order. The keyword
stage is the only fallible one (str.contains raises re.error on an
invalid regex); the remaining stages are total. -/
def apply_filters (data : List Post) (keyword_filter : String)
    (date_range : Option (Int × Int))
    (platform_filter subreddit_filter : String) : Option (List Post) :=
  (keywordStage keyword_filter data).map (fun d1 =>
    subredditStage subreddit_filter
      (platformStage platform_filter
        (dateStage date_range d1)))

/-- The filter predicate exactly as claim C4 words it: conjunctive
composition, unspecified criteria unconstrained, the keyword criterion a
case-insensitive SUBSTRING test against combined_text, the date criterion
inclusive on both ends over the date portion of created_at, and platform /
community exact equality with the sentinel "All" disabling the criterion.
The keyword conjunct is where this predicate diverges from the program
(see the C4 counterexample): str.contains reads the keyword as a regex,
not as a literal substring. -/
def matchesFilterSpec (keyword_filter : String) (date_range : Option (Int × Int))
    (platform_filter subreddit_filter : String) (p : Post) : Prop :=
  (keyword_filter ≠ "" →
    strContains (lowerStr p.combined_text) (lowerStr keyword_filter) = true) ∧
  (∀ s e, date_range = some (s, e) →
    ∃ t, p.created_at = some t ∧ s ≤ epochDay t ∧ epochDay t ≤ e) ∧
  (platform_filter ≠ "" → platform_filter ≠ "All" → p.platform = platform_filter) ∧
  (subreddit_filter ≠ "" → subreddit_filter ≠ "All" → p.subreddit = subreddit_filter)

/-- The amended filter predicate: as matchesFilterSpec, except that the
keyword criterion is a case-insensitive regex search of the lowered
keyword within combined_text, matching the regex=True default of
str.contains. -/
def matchesFilterSpecRe (keyword_filter : String) (date_range : Option (Int × Int))
    (platform_filter subreddit_filter : String) (p : Post) : Prop :=
  (keyword_filter ≠ "" →
    ∃ ts, parsePattern (lowerStr keyword_filter).data = some ts ∧
      toksSearch ts (lowerStr p.combined_text).data = true) ∧
  (∀ s e, date_range = some (s, e) →
    ∃ t, p.created_at = some t ∧ s ≤ epochDay t ∧ epochDay t ≤ e) ∧
  (platform_filter ≠ "" → platform_filter ≠ "All" → p.platform = platform_filter) ∧
  (subreddit_filter ≠ "" → subreddit_filter ≠ "All" → p.subreddit = subreddit_filter)

/-- Civil date (year, month, day) of an epoch-day count, proleptic
Gregorian calendar. -/
def civilFromDays (z0 : Int) : Int × Int × Int :=
  let z := z0 + 719468
  let era := Int.fdiv z 146097
  let doe := z - era * 146097
  let yoe := Int.fdiv (doe - Int.fdiv doe 1460 + Int.fdiv doe 36524 - Int.fdiv doe 146096) 365
  let y := yoe + era * 400
  let doy := doe - (365 * yoe + Int.fdiv yoe 4 - Int.fdiv yoe 100)
  let mp := Int.fdiv (5 * doy + 2) 153
  let d := doy - Int.fdiv (153 * mp + 2) 5 + 1
  let m := mp + (if mp < 10 then 3 else -9)
  (y + (if m ≤ 2 then 1 else 0), m, d)

/-- Decimal digits of a natural number, most significant first, by fuel. -/
def natDigits : Nat → Nat → List Char
  | 0, _ => []
  | fuel + 1, n =>
    if n < 10 then [Char.ofNat (48 + n)]
    else natDigits fuel (n / 10) ++ [Char.ofNat (48 + n % 10)]

/-- Render a natural number in decimal. -/
def natStr (n : Nat) : String := String.mk (natDigits (n + 1) n)

/-- Zero-pad a rendering to the given width. -/
def padNat (width n : Nat) : String :=
  String.mk (List.replicate (width - (natStr n).length) '0') ++ natStr n

/-- strftime('%Y-%m-%d') of a timestamp (UTC model; years in the data are
positive). -/
def dateStr (t : Int) : String :=
  let c := civilFromDays (epochDay t)
  padNat 4 c.1.toNat ++ "-" ++ padNat 2 c.2.1.toNat ++ "-" ++ padNat 2 c.2.2.toNat

/-- Result shape of get_summary_stats (a dict with six fixed keys). -/
structure SummaryStats where
  total_posts : Nat
  unique_authors : Nat
  platforms : Nat
  date_range : String
  avg_score : ℚ
  total_comments : Int
deriving DecidableEq

/-- get_summary_stats (analytics.py lines 18-54): pandas nunique counts
distinct non-null values; mean skips no rows here (score is never null);
the date range renders the non-null created_at extremes. -/
def getSummaryStats (l : List Post) : SummaryStats :=
  if l.isEmpty then
    { total_posts := 0, unique_authors := 0, platforms := 0,
      date_range := "No data", avg_score := 0, total_comments := 0 }
  else
    let ts := l.filterMap (fun p => p.created_at)
    let dr :=
      if l.all (fun p => p.created_at.isNone) then "No valid dates"
      else ((ts.min?.map dateStr).getD "") ++ " to " ++ ((ts.max?.map dateStr).getD "")
    { total_posts := l.length
      unique_authors := (firstDedup (l.map (fun p => p.author))).length
      platforms := (firstDedup (l.map (fun p => p.platform))).length
      date_range := dr
      avg_score := (l.map (fun p => (p.score : ℚ))).sum / (l.length : ℚ)
      total_comments := (l.map (fun p => p.num_comments)).sum }

/-- The n consecutive integers starting at lo. -/
def dayRangeAux (lo : Int) : Nat → List Int
  | 0 => []
  | n + 1 => lo :: dayRangeAux (lo + 1) n

/-- The consecutive epoch days from lo to hi inclusive. -/
def dayRange (lo hi : Int) : List Int := dayRangeAux lo (hi - lo + 1).toNat

/-- The daily bucketing of
`groupby(pd.Grouper(key='created_at', freq='D')).size()`: NaT rows are
dropped, the bins run from the earliest to the latest day present, and a
bin containing no rows is reported with size 0 (pd.Grouper bins a time
range like resample, emitting every intermediate bin). -/
def grouperDailySizes (l : List Post) : List (Int × Nat) :=
  let days := l.filterMap postDay
  match days.min?, days.max? with
  | some lo, some hi => (dayRange lo hi).map (fun d => (d, days.count d))
  | _, _ => []

/-- get_time_series_data (analytics.py lines 56-77) at the default
frequency 'D'; rows are (date bucket, post_count). -/
def getTimeSeriesData (l : List Post) : List (Int × Nat) :=
  if l.isEmpty || l.all (fun p => p.created_at.isNone) then []
  else grouperDailySizes l

/-- The filtered_words list of get_top_keywords (analytics.py lines
95-117): join the combined_text column with spaces, tokenize, then drop
stop words and every word of length at most 3 (line 117 tests
len(word) > 3). -/
def filteredKeywordTokens (l : List Post) : List String :=
  (findWords (String.intercalate " " (l.map (fun p => p.combined_text)))).filter
    (fun w => decide (w ∉ stop_words) && decide (3 < w.length))

/-- get_top_keywords (analytics.py lines 79-121): count the filtered
tokens and return the top_n pairs by descending count
(Counter.most_common). -/
def getTopKeywords (l : List Post) (top_n : Nat) : List (String × Nat) :=
  if l.isEmpty then []
  else
    (sortBy (fun a b => decide (b.2 < a.2))
      (countBy (filteredKeywordTokens l))).take top_n

/-- Result shape of get_keyword_time_series: a DataFrame whose column set
differs between code paths, so the columns are explicit. Rows are
(date bucket, count, keyword). -/
structure KTSFrame where
  cols : List String
  rows : List (Int × Nat × String)
deriving DecidableEq

/-- get_keyword_time_series (analytics.py lines 123-158): the guard path
returns `pd.DataFrame()`, a frame with no columns at all; each matching
keyword contributes its Grouper bucketing tagged with the keyword; with
keywords but no matches the typed empty frame of line 158 is returned.
The str.contains at line 144 shares the regex=True default of the filter
engine, but this operation's keywords are the alphabetic tokens of
get_top_keywords (its only caller passes top_5_keywords, app.py lines
203-204), which contain no regex metacharacter; on such patterns regex
search coincides with the substring test used here (tokLitSearch). -/
def getKeywordTimeSeries (l : List Post) (keywords : List String) : KTSFrame :=
  if l.isEmpty || keywords.isEmpty then { cols := [], rows := [] }
  else
    let results := keywords.filterMap (fun kw =>
      let keyword_posts := l.filter (fun p => strContains p.combined_text (lowerStr kw))
      if keyword_posts.isEmpty then none
      else some ((grouperDailySizes keyword_posts).map (fun b => (b.1, b.2, kw))))
    if results.isEmpty then
      { cols := ["created_at", "count", "keyword"], rows := [] }
    else
      { cols := ["created_at", "count", "keyword"], rows := results.flatten }

/-- One row of the contributor ranking. -/
structure ContribRow where
  author : String
  post_count : Nat
  avg_score : ℚ
  total_comments : Int
  percentage : ℚ
deriving DecidableEq

/-- Result shape of get_top_contributors; the empty and non-empty paths
produce different column sets, so the columns are explicit. -/
structure ContribFrame where
  cols : List String
  rows : List ContribRow
deriving DecidableEq

/-- round(x, 2) on an exact rational. -/
def round2 (q : ℚ) : ℚ := ((round (q * 100) : ℤ) : ℚ) / 100

/-- get_top_contributors (analytics.py lines 160-191): group by author
(pandas sorts group keys ascending), aggregate count / mean score / summed
comments, derive the percentage share rounded to two decimals, sort by
post count descending, and keep the first top_n rows. -/
def getTopContributors (l : List Post) (top_n : Nat) : ContribFrame :=
  if l.isEmpty then
    { cols := ["author", "post_count", "percentage"], rows := [] }
  else
    let keys := sortBy (fun a b => strLtB a b) (firstDedup (l.map (fun p => p.author)))
    let author_counts := keys.map (fun a =>
      let g := l.filter (fun p => decide (p.author = a))
      { author := a
        post_count := g.length
        avg_score := (g.map (fun p => (p.score : ℚ))).sum / (g.length : ℚ)
        total_comments := (g.map (fun p => p.num_comments)).sum
        percentage := round2 ((g.length : ℚ) / (l.length : ℚ) * 100) : ContribRow })
    { cols := ["author", "post_count", "avg_score", "total_comments", "percentage"]
      rows := (sortBy (fun a b => decide (b.post_count < a.post_count)) author_counts).take top_n }

/-- The number of distinct authors of a filtered set (the natural top_n
for a full contributor ranking). -/
def distinctAuthorCount (l : List Post) : Nat :=
  (firstDedup (l.map (fun p => p.author))).length

/-- The networkx graph produced by the network builder: node names (the
decorated display strings, whose node_type / label attributes are
display-only and not carried) and undirected weighted edges. -/
structure NetGraph where
  nodes : List String
  edges : List (String × String × Nat)
deriving DecidableEq

/-- networkx add_node: a no-op when the node already exists. -/
def addNode (G : NetGraph) (n : String) : NetGraph :=
  if n ∈ G.nodes then G else { nodes := G.nodes ++ [n], edges := G.edges }

/-- Is e an undirected edge between u and v? -/
def sameEdge (u v : String) (e : String × String × Nat) : Bool :=
  (decide (e.1 = u) && decide (e.2.1 = v)) || (decide (e.1 = v) && decide (e.2.1 = u))

/-- networkx add_edge on an undirected graph: refresh the weight if the
edge exists, otherwise append it. -/
def addEdge (G : NetGraph) (u v : String) (w : Nat) : NetGraph :=
  if G.edges.any (sameEdge u v) then
    { nodes := G.nodes
      edges := G.edges.map (fun e => if sameEdge u v e then (e.1, e.2.1, w) else e) }
  else
    { nodes := G.nodes, edges := G.edges ++ [(u, v, w)] }

/-- Top keys of `groupby(key).size().sort_values(ascending=False).head(k)`:
counts keyed in ascending key order (groupby sorts keys), stably re-sorted
by descending count, first k keys kept. -/
def topKeysBy (key : Post → String) (l : List Post) (k : Nat) : List String :=
  ((sortBy (fun a b => decide (b.2 < a.2))
      (sortBy (fun a b => strLtB a.1 b.1) (countBy (l.map key)))).take k).map
    (fun r => r.1)

/-- The (author, subreddit) pair counts of analytics.py lines 236-243:
group the doubly-restricted rows by the pair (keys in ascending pair
order), count, and keep counts of at least 1 (line 241, a no-op kept for
fidelity). -/
def pairCounts (l : List Post) : List ((String × String) × Nat) :=
  ((sortBy (fun a b => strLtB a.1.1 b.1.1 || (decide (a.1.1 = b.1.1) && strLtB a.1.2 b.1.2))
      (countBy (l.map (fun p => (p.author, p.subreddit)))))).filter (fun r => decide (1 ≤ r.2))

/-- Author node display name (analytics.py line 247). -/
def decoAuthor (a : String) : String := "👤 " ++ a

/-- Subreddit node display name (analytics.py line 248). -/
def decoSub (s : String) : String := "📋 r/" ++ s

/-- The double restriction of analytics.py lines 227-230. -/
def topRestriction (l : List Post) (top_authors top_subreddits : Nat) : List Post :=
  let top_author_list := topKeysBy (fun p => p.author) l top_authors
  let top_subreddit_list := topKeysBy (fun p => p.subreddit) l top_subreddits
  l.filter (fun p => decide (p.author ∈ top_author_list) && decide (p.subreddit ∈ top_subreddit_list))

/-- build_top_author_subreddit_network (analytics.py lines 193-258): pick
the top authors and top subreddits independently from the full filtered
set, restrict to rows hitting both lists, and fold the pair counts into
the graph, adding both endpoint nodes and the weighted edge per row. -/
def build_top_author_subreddit_network (l : List Post) (top_authors top_subreddits : Nat) :
    NetGraph :=
  if l.isEmpty then { nodes := [], edges := [] }
  else if (topRestriction l top_authors top_subreddits).isEmpty then
    { nodes := [], edges := [] }
  else
    (pairCounts (topRestriction l top_authors top_subreddits)).foldl
      (fun G r =>
        addEdge (addNode (addNode G (decoAuthor r.1.1)) (decoSub r.1.2))
          (decoAuthor r.1.1) (decoSub r.1.2) r.2)
      { nodes := [], edges := [] }

/-- get_weekly_posting_rhythm (analytics.py lines 260-300): rows with a
null created_at fall out of the day-name groupby (NaN key); every weekday
name appears exactly once, in Monday→Sunday order, zero-filled. The guard
returns a 0-row frame. -/
def getWeeklyPostingRhythm (l : List Post) : List (String × Nat) :=
  if l.isEmpty || l.all (fun p => p.created_at.isNone) then []
  else
    let names := l.filterMap (fun p => p.created_at.map dayNameOf)
    dayNames.map (fun d => (d, names.count d))

/-- Result shape of get_network_stats (a dict with five fixed keys). -/
structure NetworkStats where
  nodes : Nat
  edges : Nat
  density : ℚ
  avg_clustering : ℚ
  connected_components : Nat
deriving DecidableEq

/-- nx.density for an undirected simple graph: 2m / (n (n-1)), 0 when
n ≤ 1. -/
def nxDensity (G : NetGraph) : ℚ :=
  let n := G.nodes.length
  if n ≤ 1 then 0
  else (2 * G.edges.length : ℚ) / ((n : ℚ) * ((n : ℚ) - 1))

/-- Distinct neighbours of a node. -/
def nbrs (G : NetGraph) (n : String) : List String :=
  firstDedup (G.edges.filterMap (fun e =>
    if e.1 = n then some e.2.1 else if e.2.1 = n then some e.1 else none))

/-- Adjacency test. -/
def adjacent (G : NetGraph) (a b : String) : Bool := G.edges.any (sameEdge a b)

/-- The unordered pairs of a list. -/
def pairsOf {α : Type} : List α → List (α × α)
  | [] => []
  | a :: l => l.map (fun b => (a, b)) ++ pairsOf l

/-- Local clustering coefficient of a node: closed neighbour pairs over
all neighbour pairs, 0 for degree below 2. -/
def localClustering (G : NetGraph) (n : String) : ℚ :=
  let d := (nbrs G n).length
  if d < 2 then 0
  else (2 * ((pairsOf (nbrs G n)).countP (fun pr => adjacent G pr.1 pr.2)) : ℚ) /
    ((d : ℚ) * ((d : ℚ) - 1))

/-- nx.average_clustering: the mean local clustering over all nodes. -/
def avgClustering (G : NetGraph) : ℚ :=
  if G.nodes.isEmpty then 0
  else (G.nodes.map (localClustering G)).sum / (G.nodes.length : ℚ)

/-- One expansion step of a reachable set. -/
def reachStep (G : NetGraph) (s : List String) : List String :=
  firstDedup (s ++ s.flatMap (nbrs G))

/-- Reachable set after k expansion steps. -/
def reachN (G : NetGraph) : Nat → List String → List String
  | 0, s => s
  | k + 1, s => reachN G k (reachStep G s)

/-- Connected component of a node, canonically sorted; |V| expansion steps
reach the fixed point. -/
def componentOf (G : NetGraph) (n : String) : List String :=
  sortBy (fun a b => strLtB a b) (reachN G G.nodes.length [n])

/-- nx.number_connected_components: distinct components over all nodes. -/
def countComponents (G : NetGraph) : Nat :=
  (firstDedup (G.nodes.map (componentOf G))).length

/-- get_network_stats (analytics.py lines 302-334). -/
def getNetworkStats (G : NetGraph) : NetworkStats :=
  if G.nodes.length = 0 then
    { nodes := 0, edges := 0, density := 0, avg_clustering := 0,
      connected_components := 0 }
  else
    { nodes := G.nodes.length
      edges := G.edges.length
      density := nxDensity G
      avg_clustering := avgClustering G
      connected_components := countComponents G }

example : findWords "the Cat sat on THE mat, cat ran" =
    ["the", "cat", "sat", "the", "mat", "cat", "ran"] := by decide

example : strContains "hello world" "lo w" = true := by decide

example : dayNameOf 1672617600 = "Monday" := by decide

example : extractCreatedAt
    { id := some "a", title := none, selftext := none, author := none,
      subreddit := none, score := none, num_comments := none, url := none,
      created_utc := some (JVal.num 0), created := some (JVal.num 5) } = none := by
  decide

/-! Generic list lemmas used by several claims. -/

theorem mem_firstDedup {α : Type} [DecidableEq α] {a : α} {l : List α} :
    a ∈ firstDedup l ↔ a ∈ l := by
  induction l with
  | nil => simp [firstDedup]
  | cons b l ih =>
    simp only [firstDedup, List.mem_cons, List.mem_filter, decide_eq_true_eq]
    by_cases hab : a = b
    · simp [hab]
    · simp [hab, ih]

theorem nodup_firstDedup {α : Type} [DecidableEq α] (l : List α) :
    (firstDedup l).Nodup := by
  induction l with
  | nil => simp [firstDedup]
  | cons b l ih =>
    simp only [firstDedup, List.nodup_cons]
    refine ⟨fun hb => ?_, ih.filter _⟩
    · simp only [List.mem_filter, decide_eq_true_eq] at hb
      exact hb.2 rfl

theorem countBy_spec {α : Type} [DecidableEq α] {l : List α} {kc : α × Nat}
    (h : kc ∈ countBy l) : kc.2 = l.count kc.1 ∧ kc.1 ∈ l := by
  simp only [countBy, List.mem_map] at h
  obtain ⟨k, hk, rfl⟩ := h
  exact ⟨rfl, mem_firstDedup.mp hk⟩

theorem countBy_keys {α : Type} [DecidableEq α] (l : List α) :
    (countBy l).map Prod.fst = firstDedup l := by
  rw [countBy, List.map_map]
  exact List.map_id' (firstDedup l)

theorem insertBy_perm {α : Type} (bf : α → α → Bool) (a : α) (l : List α) :
    (insertBy bf a l).Perm (a :: l) := by
  induction l with
  | nil => simp [insertBy]
  | cons b l ih =>
    simp only [insertBy]
    by_cases h : bf a b
    · simp [h]
    · simp only [h, if_false]
      exact (ih.cons b).trans (List.Perm.swap a b l)

theorem sortBy_perm {α : Type} (bf : α → α → Bool) (l : List α) :
    (sortBy bf l).Perm l := by
  induction l with
  | nil => simp [sortBy]
  | cons a l ih =>
    exact (insertBy_perm bf a (sortBy bf l)).trans (ih.cons a)

theorem sum_map_count_cons {α : Type} [DecidableEq α] (a : α) (l R : List α) :
    (R.map (fun r => (a :: l).count r)).sum
      = (R.map (fun r => l.count r)).sum + R.count a := by
  induction R with
  | nil => simp
  | cons b R ih =>
    rw [List.map_cons, List.sum_cons, ih, List.map_cons, List.sum_cons,
      List.count_cons, List.count_cons]
    by_cases h : a = b
    · subst h
      simp only [beq_self_eq_true, if_true]
      omega
    · have h2 : (b == a) = false := by
        simp only [beq_eq_false_iff_ne, ne_eq]
        exact fun hh => h hh.symm
      have h3 : (a == b) = false := by
        simp only [beq_eq_false_iff_ne, ne_eq]
        exact h
      rw [h2, h3]
      omega

theorem sum_count_eq_length {α : Type} [DecidableEq α] (R : List α) (hR : R.Nodup)
    (l : List α) (h : ∀ x ∈ l, x ∈ R) :
    (R.map (fun r => l.count r)).sum = l.length := by
  induction l with
  | nil => simp
  | cons a l ih =>
    have ha : a ∈ R := h a (by simp)
    have hl : ∀ x ∈ l, x ∈ R := fun x hx => h x (by simp [hx])
    rw [sum_map_count_cons, ih hl, List.count_eq_one_of_mem hR ha, List.length_cons]

theorem int_min?_le {l : List Int} {a b : Int} (h : l.min? = some a) (hb : b ∈ l) :
    a ≤ b :=
  ((@List.min?_eq_some_iff Int a _ _ ⟨fun h1 h2 => le_antisymm h1 h2⟩
    (fun _ => le_refl _) (fun _ _ => min_choice _ _) (fun _ _ _ => le_min_iff) l).mp h).2 b hb

theorem int_le_max? {l : List Int} {a b : Int} (h : l.max? = some a) (hb : b ∈ l) :
    b ≤ a :=
  ((@List.max?_eq_some_iff Int a _ _ ⟨fun h1 h2 => le_antisymm h1 h2⟩
    (fun _ => le_refl _) (fun _ _ => max_choice _ _) (fun _ _ _ => max_le_iff) l).mp h).2 b hb

theorem int_min?_mem {l : List Int} {a : Int} (h : l.min? = some a) : a ∈ l :=
  ((@List.min?_eq_some_iff Int a _ _ ⟨fun h1 h2 => le_antisymm h1 h2⟩
    (fun _ => le_refl _) (fun _ _ => min_choice _ _) (fun _ _ _ => le_min_iff) l).mp h).1

/-! Lemmas about the loader. -/

theorem toCorpusPost_id {e p : Post} (h : toCorpusPost e = some p) : p.id = e.id := by
  unfold toCorpusPost at h
  cases hc : e.created_at with
  | none => rw [hc] at h; cases h
  | some t => rw [hc] at h; cases h; rfl

theorem toCorpusPost_created_at {e p : Post} (h : toCorpusPost e = some p) :
    p.created_at = e.created_at ∧ e.created_at ≠ none := by
  unfold toCorpusPost at h
  cases hc : e.created_at with
  | none => rw [hc] at h; cases h
  | some t => rw [hc] at h; cases h; exact ⟨rfl, by simp⟩

theorem dedupById_sublist (l : List Post) : (dedupById l).Sublist l := by
  induction l with
  | nil => simp [dedupById]
  | cons p l ih =>
    exact (((dedupById l).filter_sublist).trans ih).cons₂ p

theorem dedupById_ids_nodup (l : List Post) :
    ((dedupById l).map (fun p => p.id)).Nodup := by
  induction l with
  | nil => simp [dedupById]
  | cons p l ih =>
    simp only [dedupById, List.map_cons, List.nodup_cons]
    constructor
    · intro hmem
      simp only [List.mem_map, List.mem_filter, decide_eq_true_eq] at hmem
      obtain ⟨q, ⟨_, hne⟩, hq⟩ := hmem
      exact hne hq
    · exact ih.sublist (List.Sublist.map _ (List.filter_sublist _))

theorem dedupById_find? {l : List Post} {q : Post} (h : q ∈ dedupById l) :
    l.find? (fun r => r.id == q.id) = some q := by
  induction l with
  | nil => cases h
  | cons p l ih =>
    simp only [dedupById, List.mem_cons, List.mem_filter, decide_eq_true_eq] at h
    rcases h with rfl | ⟨hq, hne⟩
    · exact List.find?_cons_of_pos _ (by simp)
    · have hpq : (p.id == q.id) = false := by
        simp only [beq_eq_false_iff_ne, ne_eq]
        exact fun hh => hne hh.symm
      simp only [List.find?_cons, hpq]
      exact ih hq

theorem dedupById_covers {l : List Post} {r : Post} (h : r ∈ l) :
    ∃ q ∈ dedupById l, q.id = r.id := by
  induction l with
  | nil => cases h
  | cons p l ih =>
    rcases List.mem_cons.mp h with heq | hr
    · exact ⟨p, by simp [dedupById], by rw [heq]⟩
    · obtain ⟨q, hq, hqid⟩ := ih hr
      by_cases hp : q.id = p.id
      · exact ⟨p, by simp [dedupById], by rw [← hp, hqid]⟩
      · exact ⟨q, by simp [dedupById, List.mem_filter, hq, hp], hqid⟩

theorem preprocess_ids_sublist (l : List Post) :
    ((preprocess_data l).map (fun p => p.id)).Sublist (l.map (fun p => p.id)) := by
  induction l with
  | nil => simp [preprocess_data]
  | cons e l ih =>
    simp only [preprocess_data, List.filterMap_cons, List.map_cons]
    cases he : toCorpusPost e with
    | none => exact ih.trans (List.sublist_cons_self _ _)
    | some p =>
      simp only [List.map_cons, toCorpusPost_id he]
      exact ih.cons₂ e.id

/-- C7 counterexample: two input records share id "x"; the first has no
timestamp field, the second a valid one. Deduplication keeps the first,
which the timestamp filter then drops, so the corpus holds zero records
with that id, not exactly one. -/
theorem C7_duplicate_id_counterexample :
    ((parsedRecords
        [some ⟨some "x", none, none, none, none, none, none, none, none, none⟩,
         some ⟨some "x", none, none, none, none, none, none, none,
           some (JVal.num 5), none⟩]).countP (fun r => r.id == "x")) = 2 ∧
    ((load_and_preprocess
        [some ⟨some "x", none, none, none, none, none, none, none, none, none⟩,
         some ⟨some "x", none, none, none, none, none, none, none,
           some (JVal.num 5), none⟩]).countP (fun r => r.id == "x")) = 0 ∧
    ¬ ((load_and_preprocess
        [some ⟨some "x", none, none, none, none, none, none, none, none, none⟩,
         some ⟨some "x", none, none, none, none, none, none, none,
           some (JVal.num 5), none⟩]).countP (fun r => r.id == "x")) = 1 := by
  refine ⟨by decide, by decide, by decide⟩

/-- C7 (amended): loading records with identical id yields at most one
record for that id in the corpus: ids are unique in the corpus, and every
corpus record stems (via the preprocessing step) from the first parsed
record with its id in file order. (The first record with a duplicated id
is itself dropped like any other record when its timestamp is invalid,
which is what "exactly one" missed.) -/
theorem C7_dedup_keeps_first :
    ∀ ls : List (Option RawPost),
      ((load_and_preprocess ls).map (fun p => p.id)).Nodup ∧
      ∀ p ∈ load_and_preprocess ls,
        ∃ e, (parsedRecords ls).find? (fun r => r.id == p.id) = some e ∧
          toCorpusPost e = some p := by
  intro ls
  constructor
  · exact ((preprocess_ids_sublist (dedupById (parsedRecords ls))).nodup
      (dedupById_ids_nodup (parsedRecords ls)))
  · intro p hp
    obtain ⟨e, he, hep⟩ := List.mem_filterMap.mp hp
    refine ⟨e, ?_, hep⟩
    rw [toCorpusPost_id hep]
    exact dedupById_find? he

/-- C7 witness: on a one-line input with a valid timestamp, the corpus
record is traced back to the first (only) parsed record with its id. -/
theorem C7_dedup_keeps_first_witness :
    ∃ e, (parsedRecords
        [some ⟨some "x", none, none, none, none, none, none, none,
          some (JVal.num 5), none⟩]).find?
        (fun r => r.id == (⟨"x", "", "", "unknown", "reddit", "", 0, 0, "",
          some 5, " "⟩ : Post).id) = some e ∧
      toCorpusPost e = some ⟨"x", "", "", "unknown", "reddit", "", 0, 0, "",
        some 5, " "⟩ :=
  (C7_dedup_keeps_first
    [some ⟨some "x", none, none, none, none, none, none, none,
      some (JVal.num 5), none⟩]).2
    ⟨"x", "", "", "unknown", "reddit", "", 0, 0, "", some 5, " "⟩ (by decide)

/-- C8: every record retained in the corpus has a non-null created_at; a
raw record whose timestamp field is unresolvable (or resolves to an
unparsable string) gets a null created_at from the normalizer, and any
record with null created_at is dropped by the load-time preprocessing
step, never reaching the corpus. -/
theorem C8_timestamp_validity :
    ∀ (ls : List (Option RawPost)) (raw : RawPost) (s : String) (e : Post),
      (∀ p ∈ load_and_preprocess ls, p.created_at ≠ none) ∧
      (resolvedTimestamp raw = none → (extractPostFields raw).created_at = none) ∧
      (resolvedTimestamp raw = some (JVal.str s) → parseNumStr s = none →
        (extractPostFields raw).created_at = none) ∧
      (e.created_at = none → toCorpusPost e = none) := by
  intro ls raw s e
  refine ⟨?_, ?_, ?_, ?_⟩
  · intro p hp
    obtain ⟨q, _, hqp⟩ := List.mem_filterMap.mp hp
    have h1 := toCorpusPost_created_at hqp
    rw [h1.1]
    exact h1.2
  · intro h
    show extractCreatedAt raw = none
    simp [extractCreatedAt, h, jTruthy]
  · intro h hs
    show extractCreatedAt raw = none
    by_cases hemp : s.isEmpty <;>
      simp [extractCreatedAt, h, jTruthy, hemp, parseTimestampVal, hs]
  · intro h
    simp [toCorpusPost, h]

/-- C8 witness: a record whose created_utc holds the unparsable string
"not numeric" gets a null created_at, and a concrete corpus record has a
non-null created_at. -/
theorem C8_timestamp_validity_witness :
    (extractPostFields ⟨some "y", none, none, none, none, none, none, none,
      some (JVal.str "not numeric"), none⟩).created_at = none ∧
    (⟨"x", "", "", "unknown", "reddit", "", 0, 0, "", some 5, " "⟩ : Post).created_at
      ≠ none :=
  ⟨(C8_timestamp_validity []
      ⟨some "y", none, none, none, none, none, none, none,
        some (JVal.str "not numeric"), none⟩
      "not numeric"
      ⟨"x", "", "", "unknown", "reddit", "", 0, 0, "", some 5, " "⟩).2.2.1
      (by decide) (by decide),
   (C8_timestamp_validity
      [some ⟨some "x", none, none, none, none, none, none, none,
        some (JVal.num 5), none⟩]
      ⟨some "y", none, none, none, none, none, none, none,
        some (JVal.str "not numeric"), none⟩
      "not numeric"
      ⟨"x", "", "", "unknown", "reddit", "", 0, 0, "", some 5, " "⟩).1
      ⟨"x", "", "", "unknown", "reddit", "", 0, 0, "", some 5, " "⟩ (by decide)⟩

/-- C10: a raw record whose resolved timestamp field holds the number 0 (a
parsable Unix epoch) is treated as falsy by the `if timestamp:` test: the
normalizer stores a null created_at and the record is dropped from the
corpus exactly as if the timestamp were missing. -/
theorem C10_zero_epoch_dropped :
    ∀ raw : RawPost, resolvedTimestamp raw = some (JVal.num 0) →
      extractCreatedAt raw = none ∧
      toCorpusPost (extractPostFields raw) = none ∧
      load_and_preprocess [some raw] = [] := by
  intro raw h
  have h1 : extractCreatedAt raw = none := by
    simp [extractCreatedAt, h, jTruthy]
  have h2 : toCorpusPost (extractPostFields raw) = none := by
    have h3 : (extractPostFields raw).created_at = none := h1
    simp [toCorpusPost, h3]
  refine ⟨h1, h2, ?_⟩
  simp [load_and_preprocess, load_jsonl, parsedRecords, preprocess_data,
    dedupById, h2]

/-- C10 witness: a record with created_utc = 0 (and even a valid fallback
value in created, which the resolution never reaches) is dropped. -/
theorem C10_zero_epoch_dropped_witness :
    extractCreatedAt ⟨some "z", none, none, none, none, none, none, none,
      some (JVal.num 0), some (JVal.num 5)⟩ = none ∧
    toCorpusPost (extractPostFields ⟨some "z", none, none, none, none, none,
      none, none, some (JVal.num 0), some (JVal.num 5)⟩) = none ∧
    load_and_preprocess [some ⟨some "z", none, none, none, none, none, none,
      none, some (JVal.num 0), some (JVal.num 5)⟩] = [] :=
  C10_zero_epoch_dropped
    ⟨some "z", none, none, none, none, none, none, none,
      some (JVal.num 0), some (JVal.num 5)⟩ (by decide)

/-! Lemmas about the filter engine. -/

theorem toNat_ofNat_validChar {n : Nat} (h : n.isValidChar) :
    (Char.ofNat n).toNat = n := by
  rw [Char.ofNat, dif_pos h]
  simp [Char.ofNatAux, Char.toNat, UInt32.toNat, BitVec.toNat_ofNatLt]

theorem lowerChar_idem (c : Char) : lowerChar (lowerChar c) = lowerChar c := by
  unfold lowerChar Char.toLower
  by_cases h : c.toNat ≥ 65 ∧ c.toNat ≤ 90
  · rw [if_pos h]
    have hval : (c.toNat + 32).isValidChar := Or.inl (by omega)
    have hlo : (Char.ofNat (c.toNat + 32)).toNat = c.toNat + 32 :=
      toNat_ofNat_validChar hval
    rw [hlo, if_neg (by omega)]
  · rw [if_neg h, if_neg h]

theorem lowerStr_idem (s : String) : lowerStr (lowerStr s) = lowerStr s := by
  show String.mk ((s.data.map lowerChar).map lowerChar) = String.mk (s.data.map lowerChar)
  rw [List.map_map]
  congr 1
  exact List.map_congr_left (fun c _ => lowerChar_idem c)

theorem toCorpusPost_combined_text {e p : Post} (h : toCorpusPost e = some p) :
    p.combined_text = lowerStr (e.title ++ " " ++ e.text) := by
  unfold toCorpusPost at h
  cases hc : e.created_at with
  | none => rw [hc] at h; cases h
  | some t => rw [hc] at h; cases h; rfl

/-- The corpus invariant behind claim C4's hypothesis: every corpus
record's combined_text is already lower-cased. -/
theorem corpus_combined_text_lower (ls : List (Option RawPost)) :
    ∀ p ∈ load_and_preprocess ls, lowerStr p.combined_text = p.combined_text := by
  intro p hp
  obtain ⟨e, _, hep⟩ := List.mem_filterMap.mp hp
  rw [toCorpusPost_combined_text hep, lowerStr_idem]

theorem keywordStage_empty_str (d : List Post) {kw : String} (heq : kw = "") :
    keywordStage kw d = some d := by
  subst heq
  rfl

theorem keywordStage_unparsed (d : List Post) {kw : String} (hne : ¬ kw = "")
    (hp : parsePattern (lowerStr kw).data = none) : keywordStage kw d = none := by
  unfold keywordStage
  have hb : kw.isEmpty = false := by
    cases hh : kw.isEmpty
    · rfl
    · exact absurd ((String.isEmpty_iff kw).mp hh) hne
  simp [hb, hp]

theorem keywordStage_parsed (d : List Post) {kw : String} {ts : List PatTok}
    (hne : ¬ kw = "") (hp : parsePattern (lowerStr kw).data = some ts) :
    keywordStage kw d
      = some (d.filter (fun p => toksSearch ts p.combined_text.data)) := by
  unfold keywordStage
  have hb : kw.isEmpty = false := by
    cases hh : kw.isEmpty
    · rfl
    · exact absurd ((String.isEmpty_iff kw).mp hh) hne
  simp [hb, hp]

theorem tokLitPre : ∀ (cs l : List Char),
    toksMatchPre (cs.map PatTok.lit) l = cs.isPrefixOf l := by
  intro cs
  induction cs with
  | nil =>
    intro l
    cases l with
    | nil => rfl
    | cons x xs => rfl
  | cons c rest ih =>
    intro l
    cases l with
    | nil => rfl
    | cons x xs =>
      show (decide (x = c) && toksMatchPre (rest.map PatTok.lit) xs)
        = ((c == x) && rest.isPrefixOf xs)
      rw [ih]
      by_cases hxc : x = c
      · simp [hxc]
      · have hcx : ¬ c = x := fun hh => hxc hh.symm
        simp [hxc, hcx]

theorem tokLitSearch : ∀ (cs l : List Char),
    toksSearch (cs.map PatTok.lit) l = subChars cs l := by
  intro cs l
  induction l with
  | nil =>
    cases cs with
    | nil => rfl
    | cons c rest => rfl
  | cons x xs ih =>
    show (toksMatchPre (cs.map PatTok.lit) (x :: xs) || toksSearch (cs.map PatTok.lit) xs)
      = (cs.isPrefixOf (x :: xs) || subChars cs xs)
    rw [tokLitPre, ih]

theorem parsePattern_lits : ∀ cs : List Char, (∀ c ∈ cs, ¬ c ∈ reMetachars) →
    parsePattern cs = some (cs.map PatTok.lit) := by
  intro cs
  induction cs with
  | nil =>
    intro _
    rfl
  | cons c rest ih =>
    intro hmeta
    have hc : ¬ c ∈ reMetachars := hmeta c (List.mem_cons_self c rest)
    have hcdot : ¬ c = '.' := fun hh => hc (hh ▸ (by decide : '.' ∈ reMetachars))
    unfold parsePattern
    rw [if_neg hcdot, if_neg hc, ih (fun x hx => hmeta x (List.mem_cons_of_mem c hx))]
    rfl

theorem dateStage_sublist (dr : Option (Int × Int)) (d : List Post) :
    (dateStage dr d).Sublist d := by
  unfold dateStage
  cases dr with
  | none => exact List.Sublist.refl d
  | some se => obtain ⟨s, e⟩ := se; exact List.filter_sublist d

theorem platformStage_sublist (pf : String) (d : List Post) :
    (platformStage pf d).Sublist d := by
  unfold platformStage
  split
  · exact List.filter_sublist d
  · exact List.Sublist.refl d

theorem subredditStage_sublist (sf : String) (d : List Post) :
    (subredditStage sf d).Sublist d := by
  unfold subredditStage
  split
  · exact List.filter_sublist d
  · exact List.Sublist.refl d

theorem dateStage_mem {dr : Option (Int × Int)} {d : List Post} {p : Post} :
    p ∈ dateStage dr d ↔
      p ∈ d ∧ (∀ s e, dr = some (s, e) →
        ∃ t, p.created_at = some t ∧ s ≤ epochDay t ∧ epochDay t ≤ e) := by
  unfold dateStage
  cases dr with
  | none => simp
  | some se =>
    obtain ⟨s, e⟩ := se
    cases hc : p.created_at with
    | none => simp [List.mem_filter, hc]
    | some t => simp [List.mem_filter, hc]

theorem platformStage_mem {pf : String} {d : List Post} {p : Post} :
    p ∈ platformStage pf d ↔
      p ∈ d ∧ (pf ≠ "" → pf ≠ "All" → p.platform = pf) := by
  unfold platformStage
  by_cases h1 : pf.isEmpty = true
  · have heq : pf = "" := (String.isEmpty_iff pf).mp h1
    subst heq
    rw [if_neg (by decide)]
    simp
  · have hne : ¬ pf = "" := fun heq => by
      rw [heq] at h1; exact h1 rfl
    by_cases h2 : pf = "All"
    · simp [h1, h2]
    · simp [h1, h2, List.mem_filter, hne]

theorem subredditStage_mem {sf : String} {d : List Post} {p : Post} :
    p ∈ subredditStage sf d ↔
      p ∈ d ∧ (sf ≠ "" → sf ≠ "All" → p.subreddit = sf) := by
  unfold subredditStage
  by_cases h1 : sf.isEmpty = true
  · have heq : sf = "" := (String.isEmpty_iff sf).mp h1
    subst heq
    rw [if_neg (by decide)]
    simp
  · have hne : ¬ sf = "" := fun heq => by
      rw [heq] at h1; exact h1 rfl
    by_cases h2 : sf = "All"
    · simp [h1, h2]
    · simp [h1, h2, List.mem_filter, hne]

/-- C4 counterexample: str.contains defaults to regex=True, so the
keyword is a regular expression, not a literal substring. With keyword
"." the post whose combined_text is "abc" passes the filter although "."
is not a substring of "abc" — so the original claim's substring predicate
rejects a post the program keeps — and the invalid pattern "(" makes
apply_filters fail (re.error in the source) instead of producing any
filtered set. -/
theorem C4_regex_keyword_counterexample :
    apply_filters
      [⟨"a", "", "", "u", "reddit", "s", 0, 0, "", some 0, "abc"⟩]
      "." none "All" ""
      = some [⟨"a", "", "", "u", "reddit", "s", 0, 0, "", some 0, "abc"⟩] ∧
    strContains
      (lowerStr (⟨"a", "", "", "u", "reddit", "s", 0, 0, "", some 0,
        "abc"⟩ : Post).combined_text)
      (lowerStr ".") = false ∧
    ¬ matchesFilterSpec "." none "All" ""
      ⟨"a", "", "", "u", "reddit", "s", 0, 0, "", some 0, "abc"⟩ ∧
    apply_filters
      [⟨"a", "", "", "u", "reddit", "s", 0, 0, "", some 0, "abc"⟩]
      "(" none "All" "" = none := by
  refine ⟨by decide, by decide, ?_, by decide⟩
  intro h
  exact absurd (h.1 (by decide)) (by decide)

/-- C4 (amended): apply_filters composes the specified criteria
conjunctively and preserves the corpus's relative order, with unspecified
criteria unconstrained, inclusive date-portion bounds, and "All"-disabled
platform / community equality, as claimed — but the keyword criterion
interprets the lowered keyword as a regular expression searched
case-insensitively within combined_text (the regex=True default of
str.contains): a keyword whose pattern does not parse (the invalid
patterns on which the source raises re.error, and operators outside the
modelled fragment) yields no filtered set at all, and only for keywords
free of regex metacharacters does the criterion coincide with the
claimed case-insensitive substring test. -/
theorem C4_filters_regex :
    ∀ (data : List Post) (kw : String) (dr : Option (Int × Int)) (pf sf : String),
      (∀ p ∈ data, lowerStr p.combined_text = p.combined_text) →
      (¬ kw = "" → parsePattern (lowerStr kw).data = none →
        apply_filters data kw dr pf sf = none) ∧
      (∀ out, apply_filters data kw dr pf sf = some out →
        out.Sublist data ∧
        ∀ p, p ∈ out ↔ p ∈ data ∧ matchesFilterSpecRe kw dr pf sf p) ∧
      ((kw = "" ∨ (parsePattern (lowerStr kw).data).isSome = true) →
        (apply_filters data kw dr pf sf).isSome = true) ∧
      (∀ cs : List Char, (∀ c ∈ cs, ¬ c ∈ reMetachars) →
        parsePattern cs = some (cs.map PatTok.lit) ∧
        ∀ l : List Char, toksSearch (cs.map PatTok.lit) l = subChars cs l) := by
  intro data kw dr pf sf h
  refine ⟨?_, ?_, ?_,
    fun cs hmeta => ⟨parsePattern_lits cs hmeta, fun l => tokLitSearch cs l⟩⟩
  · intro hne hp
    unfold apply_filters
    rw [keywordStage_unparsed data hne hp]
    rfl
  · intro out hout
    unfold apply_filters at hout
    rcases Option.map_eq_some'.mp hout with ⟨d1, hd1, rfl⟩
    by_cases hkw : kw = ""
    · rw [keywordStage_empty_str data hkw] at hd1
      have hd1e : d1 = data := (Option.some.inj hd1).symm
      subst hd1e
      constructor
      · exact ((subredditStage_sublist sf _).trans
          ((platformStage_sublist pf _).trans (dateStage_sublist dr _)))
      · intro p
        rw [subredditStage_mem, platformStage_mem, dateStage_mem]
        unfold matchesFilterSpecRe
        constructor
        · rintro ⟨⟨⟨hpd, hdt⟩, hpf⟩, hsf⟩
          exact ⟨hpd, fun hne => absurd hkw hne, hdt, hpf, hsf⟩
        · rintro ⟨hpd, _, hdt, hpf, hsf⟩
          exact ⟨⟨⟨hpd, hdt⟩, hpf⟩, hsf⟩
    · cases hp : parsePattern (lowerStr kw).data with
      | none =>
        rw [keywordStage_unparsed data hkw hp] at hd1
        cases hd1
      | some ts =>
        rw [keywordStage_parsed data hkw hp] at hd1
        have hd1e : d1 = data.filter (fun p => toksSearch ts p.combined_text.data) :=
          (Option.some.inj hd1).symm
        subst hd1e
        constructor
        · exact ((subredditStage_sublist sf _).trans
            ((platformStage_sublist pf _).trans
              ((dateStage_sublist dr _).trans (List.filter_sublist data))))
        · intro p
          rw [subredditStage_mem, platformStage_mem, dateStage_mem, List.mem_filter]
          unfold matchesFilterSpecRe
          constructor
          · rintro ⟨⟨⟨⟨hpd, hsearch⟩, hdt⟩, hpf⟩, hsf⟩
            refine ⟨hpd, fun _ => ⟨ts, hp, ?_⟩, hdt, hpf, hsf⟩
            rw [h p hpd]
            exact hsearch
          · rintro ⟨hpd, hk, hdt, hpf, hsf⟩
            obtain ⟨ts2, hp2, hs2⟩ := hk hkw
            have hts : ts2 = ts := Option.some.inj (hp2.symm.trans hp)
            subst hts
            rw [h p hpd] at hs2
            exact ⟨⟨⟨⟨hpd, hs2⟩, hdt⟩, hpf⟩, hsf⟩
  · intro hor
    by_cases hkw : kw = ""
    · unfold apply_filters
      rw [keywordStage_empty_str data hkw]
      rfl
    · have hsome := Or.resolve_left hor hkw
      obtain ⟨ts, hts⟩ := Option.isSome_iff_exists.mp hsome
      unfold apply_filters
      rw [keywordStage_parsed data hkw hts]
      rfl

/-- C4 witness: a concrete two-post corpus. The invalid pattern "("
yields none; the literal keyword "cat" with a date interval yields the
matching singleton, characterized by the amended predicate; and "cat"
exemplifies the metacharacter-free coincidence with substring search. -/
theorem C4_filters_regex_witness :
    apply_filters
      [⟨"a", "", "", "u1", "reddit", "s1", 1, 0, "", some 86500, "the cat sat"⟩,
       ⟨"b", "", "", "u2", "reddit", "s2", 2, 0, "", some 86500, "a dog ran"⟩]
      "(" none "All" "" = none ∧
    (apply_filters
      [⟨"a", "", "", "u1", "reddit", "s1", 1, 0, "", some 86500, "the cat sat"⟩,
       ⟨"b", "", "", "u2", "reddit", "s2", 2, 0, "", some 86500, "a dog ran"⟩]
      "cat" (some (1, 2)) "All" "").isSome = true ∧
    ([(⟨"a", "", "", "u1", "reddit", "s1", 1, 0, "", some 86500,
        "the cat sat"⟩ : Post)].Sublist
      [⟨"a", "", "", "u1", "reddit", "s1", 1, 0, "", some 86500, "the cat sat"⟩,
       ⟨"b", "", "", "u2", "reddit", "s2", 2, 0, "", some 86500, "a dog ran"⟩] ∧
      ∀ p, p ∈ [(⟨"a", "", "", "u1", "reddit", "s1", 1, 0, "", some 86500,
          "the cat sat"⟩ : Post)] ↔
        p ∈ [⟨"a", "", "", "u1", "reddit", "s1", 1, 0, "", some 86500, "the cat sat"⟩,
         ⟨"b", "", "", "u2", "reddit", "s2", 2, 0, "", some 86500, "a dog ran"⟩] ∧
        matchesFilterSpecRe "cat" (some (1, 2)) "All" "" p) ∧
    (parsePattern "cat".data = some ("cat".data.map PatTok.lit) ∧
      ∀ l : List Char, toksSearch ("cat".data.map PatTok.lit) l = subChars "cat".data l) :=
  ⟨(C4_filters_regex
      [⟨"a", "", "", "u1", "reddit", "s1", 1, 0, "", some 86500, "the cat sat"⟩,
       ⟨"b", "", "", "u2", "reddit", "s2", 2, 0, "", some 86500, "a dog ran"⟩]
      "(" none "All" "" (by decide)).1 (by decide) (by decide),
   (C4_filters_regex
      [⟨"a", "", "", "u1", "reddit", "s1", 1, 0, "", some 86500, "the cat sat"⟩,
       ⟨"b", "", "", "u2", "reddit", "s2", 2, 0, "", some 86500, "a dog ran"⟩]
      "cat" (some (1, 2)) "All" "" (by decide)).2.2.1 (Or.inr (by decide)),
   (C4_filters_regex
      [⟨"a", "", "", "u1", "reddit", "s1", 1, 0, "", some 86500, "the cat sat"⟩,
       ⟨"b", "", "", "u2", "reddit", "s2", 2, 0, "", some 86500, "a dog ran"⟩]
      "cat" (some (1, 2)) "All" "" (by decide)).2.1
      [⟨"a", "", "", "u1", "reddit", "s1", 1, 0, "", some 86500, "the cat sat"⟩]
      (by decide),
   (C4_filters_regex
      [⟨"a", "", "", "u1", "reddit", "s1", 1, 0, "", some 86500, "the cat sat"⟩,
       ⟨"b", "", "", "u2", "reddit", "s2", 2, 0, "", some 86500, "a dog ran"⟩]
      "cat" (some (1, 2)) "All" "" (by decide)).2.2.2 "cat".data (by decide)⟩

/-! Lemmas for the weekly rhythm. -/

theorem getD_mem {α : Type} :
    ∀ (l : List α) (i : Nat) (d : α), i < l.length → l.getD i d ∈ l
  | a :: l, 0, d, _ => by simp
  | a :: l, i + 1, d, h => by
    have hrec := getD_mem l i d (by simpa using h)
    simp only [List.getD_cons_succ, List.mem_cons]
    exact Or.inr hrec

theorem dayNameOf_mem (t : Int) : dayNameOf t ∈ dayNames := by
  unfold dayNameOf
  apply getD_mem
  have h1 : 0 ≤ (epochDay t + 3).emod 7 := Int.emod_nonneg _ (by decide)
  have h2 : (epochDay t + 3).emod 7 < 7 := Int.emod_lt_of_pos _ (by decide)
  show ((epochDay t + 3).emod 7).toNat < dayNames.length
  have h3 : dayNames.length = 7 := rfl
  rw [h3]
  omega

theorem filterMap_dayName_length :
    ∀ l : List Post, (∀ p ∈ l, p.created_at.isSome) →
      (l.filterMap (fun p => p.created_at.map dayNameOf)).length = l.length := by
  intro l
  induction l with
  | nil => intro _; rfl
  | cons a t ih =>
    intro h
    have ha := h a (by simp)
    cases hc : a.created_at with
    | none => rw [hc] at ha; cases ha
    | some v =>
      simp only [List.filterMap_cons, hc, Option.map_some', List.length_cons]
      rw [ih (fun p hp => h p (by simp [hp]))]

/-- C3 counterexample: on the empty filtered set the weekly rhythm is the
0-row empty frame, not 7 zero-filled rows. -/
theorem C3_empty_rhythm_counterexample :
    getWeeklyPostingRhythm [] = [] ∧
    ¬ ((getWeeklyPostingRhythm ([] : List Post)).length = 7) := by
  exact ⟨rfl, by decide⟩

/-- C3 (amended): for every NON-empty filtered post set (whose posts carry
the corpus's non-null created_at), the weekly rhythm returns exactly 7
rows, one per canonical weekday name in Monday→Sunday order, zero-filled
for absent weekdays, with counts summing to the number of posts; on the
empty set it returns a 0-row frame instead. -/
theorem C3_weekly_rhythm_seven_rows :
    ∀ l : List Post, l ≠ [] → (∀ p ∈ l, p.created_at.isSome) →
      (getWeeklyPostingRhythm l).map Prod.fst = dayNames ∧
      (getWeeklyPostingRhythm l).length = 7 ∧
      ((getWeeklyPostingRhythm l).map Prod.snd).sum = l.length := by
  intro l hne hsome
  have hguard : (l.isEmpty || l.all fun p => p.created_at.isNone) = false := by
    cases l with
    | nil => exact absurd rfl hne
    | cons a t =>
      have ha := hsome a (by simp)
      have hnone : a.created_at.isNone = false := by
        cases hc : a.created_at with
        | none => rw [hc] at ha; cases ha
        | some v => rfl
      simp [hnone]
  have hcond : ¬ ((l.isEmpty || l.all fun p => p.created_at.isNone) = true) := by
    intro hh
    rw [hguard] at hh
    exact Bool.false_ne_true hh
  unfold getWeeklyPostingRhythm
  rw [if_neg hcond]
  refine ⟨?_, ?_, ?_⟩
  · rw [List.map_map]
    exact List.map_id' dayNames
  · simp [dayNames]
  · rw [List.map_map]
    have hmem : ∀ x ∈ l.filterMap (fun p => p.created_at.map dayNameOf),
        x ∈ dayNames := by
      intro x hx
      obtain ⟨p, _, hpx⟩ := List.mem_filterMap.mp hx
      cases hc : p.created_at with
      | none => rw [hc] at hpx; cases hpx
      | some t =>
        rw [hc] at hpx
        simp only [Option.map_some', Option.some_inj] at hpx
        rw [← hpx]
        exact dayNameOf_mem t
    have hsum := sum_count_eq_length dayNames (by decide)
      (l.filterMap (fun p => p.created_at.map dayNameOf)) hmem
    exact hsum.trans (filterMap_dayName_length l hsome)

/-- C3 witness: a singleton post on epoch day 0 (a Thursday). -/
theorem C3_weekly_rhythm_seven_rows_witness :
    (getWeeklyPostingRhythm
      [⟨"a", "", "", "u", "reddit", "s", 0, 0, "", some 0, ""⟩]).map Prod.fst
        = dayNames ∧
    (getWeeklyPostingRhythm
      [⟨"a", "", "", "u", "reddit", "s", 0, 0, "", some 0, ""⟩]).length = 7 ∧
    ((getWeeklyPostingRhythm
      [⟨"a", "", "", "u", "reddit", "s", 0, 0, "", some 0, ""⟩]).map Prod.snd).sum
        = [(⟨"a", "", "", "u", "reddit", "s", 0, 0, "", some 0, ""⟩ : Post)].length :=
  C3_weekly_rhythm_seven_rows
    [⟨"a", "", "", "u", "reddit", "s", 0, 0, "", some 0, ""⟩]
    (by decide) (by decide)

/-! Lemmas for the time series. -/

theorem mem_dayRangeAux :
    ∀ (n : Nat) (lo d : Int), d ∈ dayRangeAux lo n ↔ lo ≤ d ∧ d < lo + (n : Int) := by
  intro n
  induction n with
  | zero =>
    intro lo d
    simp [dayRangeAux]
  | succ k ih =>
    intro lo d
    simp only [dayRangeAux, List.mem_cons, ih (lo + 1)]
    omega

theorem mem_dayRange {lo hi d : Int} : d ∈ dayRange lo hi ↔ lo ≤ d ∧ d ≤ hi := by
  unfold dayRange
  rw [mem_dayRangeAux]
  omega

theorem nodup_dayRangeAux : ∀ (n : Nat) (lo : Int), (dayRangeAux lo n).Nodup := by
  intro n
  induction n with
  | zero =>
    intro lo
    simp [dayRangeAux]
  | succ k ih =>
    intro lo
    simp only [dayRangeAux, List.nodup_cons]
    refine ⟨fun hmem => ?_, ih (lo + 1)⟩
    have := (mem_dayRangeAux k (lo + 1) lo).mp hmem
    omega

theorem nodup_dayRange (lo hi : Int) : (dayRange lo hi).Nodup :=
  nodup_dayRangeAux _ _

/-- C2 counterexample: two posts on epoch days 0 and 2; the Grouper
bucketing emits the intermediate empty day 1 with count 0, which the claim
says can never appear. -/
theorem C2_zero_bucket_counterexample :
    (1, 0) ∈ getTimeSeriesData
      [⟨"a", "", "", "u", "reddit", "s", 0, 0, "", some 0, ""⟩,
       ⟨"b", "", "", "u", "reddit", "s", 0, 0, "", some 172800, ""⟩] ∧
    getTimeSeriesData
      [⟨"a", "", "", "u", "reddit", "s", 0, 0, "", some 0, ""⟩,
       ⟨"b", "", "", "u", "reddit", "s", 0, 0, "", some 172800, ""⟩]
      = [(0, 1), (1, 0), (2, 1)] := by
  exact ⟨by decide, by decide⟩

/-- C2 (amended): for every filtered set with at least one dated post, the
time series at the default daily frequency emits one bucket per calendar
day from the earliest to the latest day present — inclusive and
consecutive, so days without posts appear with count 0 (pandas Grouper
zero-fills the interior of the range) — each bucket counting exactly the
posts of its day, and the counts sum to the number of dated posts. -/
theorem C2_time_series_buckets :
    ∀ l : List Post, (∃ p ∈ l, p.created_at.isSome) →
      ∃ lo hi, (l.filterMap postDay).min? = some lo ∧
        (l.filterMap postDay).max? = some hi ∧
        (getTimeSeriesData l).map Prod.fst = dayRange lo hi ∧
        (∀ b ∈ getTimeSeriesData l, b.2 = (l.filterMap postDay).count b.1) ∧
        ((getTimeSeriesData l).map Prod.snd).sum = (l.filterMap postDay).length := by
  intro l hex
  obtain ⟨p, hp, hps⟩ := hex
  obtain ⟨t, ht⟩ := Option.isSome_iff_exists.mp hps
  have hmemday : epochDay t ∈ l.filterMap postDay := by
    refine List.mem_filterMap.mpr ⟨p, hp, ?_⟩
    rw [postDay, ht]
    rfl
  have hguard : ¬ ((l.isEmpty || l.all fun q => q.created_at.isNone) = true) := by
    intro hh
    rcases Bool.or_eq_true_iff.mp hh with h1 | h2
    · rw [List.isEmpty_iff.mp h1] at hp
      cases hp
    · have := List.all_eq_true.mp h2 p hp
      rw [ht] at this
      cases this
  have hts : getTimeSeriesData l = grouperDailySizes l := by
    unfold getTimeSeriesData
    rw [if_neg hguard]
  obtain ⟨a, rest, hd⟩ :=
    List.exists_cons_of_ne_nil (List.ne_nil_of_mem hmemday)
  have hmin : (l.filterMap postDay).min? = some (rest.foldl min a) := by
    rw [hd]; rfl
  have hmax : (l.filterMap postDay).max? = some (rest.foldl max a) := by
    rw [hd]; rfl
  have heq : grouperDailySizes l
      = (dayRange (rest.foldl min a) (rest.foldl max a)).map
        (fun d => (d, (l.filterMap postDay).count d)) := by
    unfold grouperDailySizes
    rw [hd]
    rfl
  refine ⟨rest.foldl min a, rest.foldl max a, hmin, hmax, ?_, ?_, ?_⟩
  · rw [hts, heq, List.map_map]
    exact List.map_id' _
  · intro b hb
    rw [hts, heq] at hb
    obtain ⟨d, _, hdb⟩ := List.mem_map.mp hb
    rw [← hdb]
  · rw [hts, heq, List.map_map]
    have hcover : ∀ x ∈ l.filterMap postDay,
        x ∈ dayRange (rest.foldl min a) (rest.foldl max a) := by
      intro x hx
      exact mem_dayRange.mpr ⟨int_min?_le hmin hx, int_le_max? hmax hx⟩
    have hsum := sum_count_eq_length _ (nodup_dayRange (rest.foldl min a)
      (rest.foldl max a)) _ hcover
    exact hsum

/-- C2 witness: two posts on adjacent epoch days 0 and 1. -/
theorem C2_time_series_buckets_witness :
    ∃ lo hi,
      ([⟨"a", "", "", "u", "reddit", "s", 0, 0, "", some 60, ""⟩,
        ⟨"b", "", "", "u", "reddit", "s", 0, 0, "", some 86460, ""⟩].filterMap
          postDay).min? = some lo ∧
      ([⟨"a", "", "", "u", "reddit", "s", 0, 0, "", some 60, ""⟩,
        ⟨"b", "", "", "u", "reddit", "s", 0, 0, "", some 86460, ""⟩].filterMap
          postDay).max? = some hi ∧
      (getTimeSeriesData
        [⟨"a", "", "", "u", "reddit", "s", 0, 0, "", some 60, ""⟩,
         ⟨"b", "", "", "u", "reddit", "s", 0, 0, "", some 86460, ""⟩]).map Prod.fst
        = dayRange lo hi ∧
      (∀ b ∈ getTimeSeriesData
        [⟨"a", "", "", "u", "reddit", "s", 0, 0, "", some 60, ""⟩,
         ⟨"b", "", "", "u", "reddit", "s", 0, 0, "", some 86460, ""⟩],
        b.2 = ([⟨"a", "", "", "u", "reddit", "s", 0, 0, "", some 60, ""⟩,
          ⟨"b", "", "", "u", "reddit", "s", 0, 0, "", some 86460, ""⟩].filterMap
            postDay).count b.1) ∧
      ((getTimeSeriesData
        [⟨"a", "", "", "u", "reddit", "s", 0, 0, "", some 60, ""⟩,
         ⟨"b", "", "", "u", "reddit", "s", 0, 0, "", some 86460, ""⟩]).map
          Prod.snd).sum
        = ([⟨"a", "", "", "u", "reddit", "s", 0, 0, "", some 60, ""⟩,
          ⟨"b", "", "", "u", "reddit", "s", 0, 0, "", some 86460, ""⟩].filterMap
            postDay).length :=
  C2_time_series_buckets
    [⟨"a", "", "", "u", "reddit", "s", 0, 0, "", some 60, ""⟩,
     ⟨"b", "", "", "u", "reddit", "s", 0, 0, "", some 86460, ""⟩]
    ⟨⟨"a", "", "", "u", "reddit", "s", 0, 0, "", some 60, ""⟩, by decide, by decide⟩

/-- C1 counterexample: on the claim's own example text every token has
length exactly 3, and line 117's len(word) > 3 filter removes them all, so
the result is empty — ("cat", 2) is not the top result. -/
theorem C1_length3_counterexample :
    getTopKeywords
      [⟨"e", "", "", "u", "reddit", "s", 0, 0, "", some 0,
        "the Cat sat on THE mat, cat ran"⟩] 10 = [] ∧
    ¬ ("cat", 2) ∈ getTopKeywords
      [⟨"e", "", "", "u", "reddit", "s", 0, 0, "", some 0,
        "the Cat sat on THE mat, cat ran"⟩] 10 := by
  exact ⟨by decide, by decide⟩

/-- C1 (amended): keyword frequency tokenizes the concatenated
combined_text into lower-case alphabetic runs of length ≥ 3, then removes
both the fixed stop-word list AND every token of length at most 3 — so
only tokens of length ≥ 4 are ever counted (a length-3 token such as
"cat" is dropped), and every reported count is the exact occurrence count
of its keyword among the filtered tokens. -/
theorem C1_keyword_tokens :
    ∀ (l : List Post) (top_n : Nat) (w : String) (c : Nat),
      (w, c) ∈ getTopKeywords l top_n →
      w ∉ stop_words ∧ 4 ≤ w.length ∧ c = (filteredKeywordTokens l).count w := by
  intro l top_n w c hmem
  unfold getTopKeywords at hmem
  by_cases he : l.isEmpty = true
  · rw [if_pos he] at hmem
    cases hmem
  · rw [if_neg he] at hmem
    have h1 : (w, c) ∈ sortBy (fun a b => decide (b.2 < a.2))
        (countBy (filteredKeywordTokens l)) := List.mem_of_mem_take hmem
    have h2 : (w, c) ∈ countBy (filteredKeywordTokens l) :=
      (sortBy_perm _ _).mem_iff.mp h1
    obtain ⟨hc, hw⟩ := countBy_spec h2
    obtain ⟨_, hcond⟩ := List.mem_filter.mp hw
    simp only [Bool.and_eq_true, decide_eq_true_eq] at hcond
    exact ⟨hcond.1, by omega, hc⟩

/-- C1 witness: "hello world hello" yields ("hello", 2) as a counted
keyword; the theorem applies to it. -/
theorem C1_keyword_tokens_witness :
    ¬ "hello" ∈ stop_words ∧ 4 ≤ "hello".length ∧
    2 = (filteredKeywordTokens
      [⟨"e", "", "", "u", "reddit", "s", 0, 0, "", some 0,
        "hello world hello"⟩]).count "hello" :=
  C1_keyword_tokens
    [⟨"e", "", "", "u", "reddit", "s", 0, 0, "", some 0,
      "hello world hello"⟩] 10 "hello" 2 (by decide)

/-! Lemmas for the contributor ranking. -/

theorem filter_author_length (l : List Post) (a : String) :
    (l.filter (fun p => decide (p.author = a))).length
      = (l.map (fun p => p.author)).count a := by
  induction l with
  | nil => rfl
  | cons p t ih =>
    simp only [List.filter_cons, List.map_cons, List.count_cons, beq_iff_eq]
    by_cases h : p.author = a
    · simp [h, ih]
    · simp [h, ih]

/-- Characterization of the non-empty branch of get_top_contributors: its
rows are the top_n of the descending sort of one row per distinct author,
whose post counts sum to the number of posts and whose percentage field is
the rounded share of its post count. -/
theorem getTopContributors_rows (l : List Post) (n : Nat)
    (he : l.isEmpty = false) :
    ∃ rows : List ContribRow,
      (getTopContributors l n).rows
        = (sortBy (fun a b => decide (b.post_count < a.post_count)) rows).take n ∧
      rows.length = distinctAuthorCount l ∧
      (rows.map (fun r => r.post_count)).sum = l.length ∧
      ∀ r ∈ rows, r.percentage
        = round2 ((r.post_count : ℚ) / (l.length : ℚ) * 100) := by
  refine ⟨(sortBy (fun a b => strLtB a b)
      (firstDedup (l.map (fun p => p.author)))).map
    (fun a =>
      { author := a
        post_count := (l.filter (fun p => decide (p.author = a))).length
        avg_score := ((l.filter (fun p => decide (p.author = a))).map
          (fun p => (p.score : ℚ))).sum
          / (((l.filter (fun p => decide (p.author = a))).length : ℚ))
        total_comments := ((l.filter (fun p => decide (p.author = a))).map
          (fun p => p.num_comments)).sum
        percentage := round2
          (((l.filter (fun p => decide (p.author = a))).length : ℚ)
            / (l.length : ℚ) * 100) : ContribRow }), ?_, ?_, ?_, ?_⟩
  · unfold getTopContributors
    rw [if_neg (by rw [he]; exact Bool.false_ne_true)]
  · rw [List.length_map, (sortBy_perm _ _).length_eq]
    rfl
  · rw [List.map_map]
    show ((sortBy (fun a b => strLtB a b)
      (firstDedup (l.map (fun p => p.author)))).map
      (fun a => (l.filter (fun p => decide (p.author = a))).length)).sum = l.length
    have hperm := (sortBy_perm (fun a b : String => strLtB a b)
      (firstDedup (l.map (fun p => p.author)))).map
      (fun a => (l.filter (fun p => decide (p.author = a))).length)
    rw [hperm.sum_eq]
    have hpt : (firstDedup (l.map (fun p => p.author))).map
        (fun a => (l.filter (fun p => decide (p.author = a))).length)
        = (firstDedup (l.map (fun p => p.author))).map
        (fun a => (l.map (fun p => p.author)).count a) :=
      List.map_congr_left (fun a _ => filter_author_length l a)
    rw [hpt, sum_count_eq_length _ (nodup_firstDedup _) _
      (fun x hx => mem_firstDedup.mpr hx), List.length_map]
  · intro r hr
    obtain ⟨a, _, rfl⟩ := List.mem_map.mp hr
    rfl

/-- C9: the contributor ranking taken with top_n equal to the number of
distinct authors covers every author, its post counts sum to the size of
the filtered set, and each percentage equals post_count / len(F) * 100
rounded to 2 decimals. -/
theorem C9_contributor_shares :
    ∀ l : List Post,
      ((getTopContributors l (distinctAuthorCount l)).rows.map
        (fun r => r.post_count)).sum = l.length ∧
      ∀ i (h : i < (getTopContributors l (distinctAuthorCount l)).rows.length),
        ((getTopContributors l (distinctAuthorCount l)).rows.get ⟨i, h⟩).percentage
          = round2
            ((((getTopContributors l (distinctAuthorCount l)).rows.get
              ⟨i, h⟩).post_count : ℚ) / (l.length : ℚ) * 100) := by
  intro l
  by_cases he : l.isEmpty = true
  · have hl : l = [] := List.isEmpty_iff.mp he
    subst hl
    refine ⟨rfl, ?_⟩
    intro i h
    simp [getTopContributors, distinctAuthorCount, firstDedup] at h
  · have he2 : l.isEmpty = false := by
      cases hh : l.isEmpty
      · rfl
      · exact absurd hh he
    obtain ⟨rows, hre, hlen, hsum, hperc⟩ :=
      getTopContributors_rows l (distinctAuthorCount l) he2
    have htake : (sortBy (fun a b => decide (b.post_count < a.post_count))
        rows).take (distinctAuthorCount l)
        = sortBy (fun a b => decide (b.post_count < a.post_count)) rows :=
      List.take_of_length_le (by rw [(sortBy_perm _ _).length_eq, hlen])
    have hrows2 : (getTopContributors l (distinctAuthorCount l)).rows
        = sortBy (fun a b => decide (b.post_count < a.post_count)) rows :=
      hre.trans htake
    constructor
    · rw [hrows2]
      have hp := ((sortBy_perm (fun a b => decide (b.post_count < a.post_count))
        rows).map (fun r => r.post_count)).sum_eq
      rw [hp]
      exact hsum
    · intro i h
      obtain ⟨r, hrget⟩ : ∃ r, (getTopContributors l (distinctAuthorCount l)).rows.get
          ⟨i, h⟩ = r := ⟨_, rfl⟩
      rw [hrget]
      have hmem : r ∈ (getTopContributors l (distinctAuthorCount l)).rows :=
        hrget ▸ List.get_mem _ i h
      rw [hrows2] at hmem
      have hmem2 := (sortBy_perm _ _).mem_iff.mp hmem
      exact hperc _ hmem2

/-- C9 witness: three posts by two authors; percentages are shares of 3. -/
theorem C9_contributor_shares_witness :
    ((getTopContributors
      [⟨"a", "", "", "u1", "reddit", "s", 1, 2, "", some 0, ""⟩,
       ⟨"b", "", "", "u1", "reddit", "s", 3, 4, "", some 0, ""⟩,
       ⟨"c", "", "", "u2", "reddit", "s", 5, 6, "", some 0, ""⟩]
      (distinctAuthorCount
        [⟨"a", "", "", "u1", "reddit", "s", 1, 2, "", some 0, ""⟩,
         ⟨"b", "", "", "u1", "reddit", "s", 3, 4, "", some 0, ""⟩,
         ⟨"c", "", "", "u2", "reddit", "s", 5, 6, "", some 0, ""⟩])).rows.map
      (fun r => r.post_count)).sum = 3 ∧
    ((getTopContributors
      [⟨"a", "", "", "u1", "reddit", "s", 1, 2, "", some 0, ""⟩,
       ⟨"b", "", "", "u1", "reddit", "s", 3, 4, "", some 0, ""⟩,
       ⟨"c", "", "", "u2", "reddit", "s", 5, 6, "", some 0, ""⟩]
      (distinctAuthorCount
        [⟨"a", "", "", "u1", "reddit", "s", 1, 2, "", some 0, ""⟩,
         ⟨"b", "", "", "u1", "reddit", "s", 3, 4, "", some 0, ""⟩,
         ⟨"c", "", "", "u2", "reddit", "s", 5, 6, "", some 0, ""⟩])).rows.get
      ⟨0, by decide⟩).percentage
      = round2 ((((getTopContributors
        [⟨"a", "", "", "u1", "reddit", "s", 1, 2, "", some 0, ""⟩,
         ⟨"b", "", "", "u1", "reddit", "s", 3, 4, "", some 0, ""⟩,
         ⟨"c", "", "", "u2", "reddit", "s", 5, 6, "", some 0, ""⟩]
        (distinctAuthorCount
          [⟨"a", "", "", "u1", "reddit", "s", 1, 2, "", some 0, ""⟩,
           ⟨"b", "", "", "u1", "reddit", "s", 3, 4, "", some 0, ""⟩,
           ⟨"c", "", "", "u2", "reddit", "s", 5, 6, "", some 0, ""⟩])).rows.get
        ⟨0, by decide⟩).post_count : ℚ) / (3 : ℚ) * 100) :=
  ⟨(C9_contributor_shares
      [⟨"a", "", "", "u1", "reddit", "s", 1, 2, "", some 0, ""⟩,
       ⟨"b", "", "", "u1", "reddit", "s", 3, 4, "", some 0, ""⟩,
       ⟨"c", "", "", "u2", "reddit", "s", 5, 6, "", some 0, ""⟩]).1,
   (C9_contributor_shares
      [⟨"a", "", "", "u1", "reddit", "s", 1, 2, "", some 0, ""⟩,
       ⟨"b", "", "", "u1", "reddit", "s", 3, 4, "", some 0, ""⟩,
       ⟨"c", "", "", "u2", "reddit", "s", 5, 6, "", some 0, ""⟩]).2 0 (by decide)⟩

/-! Lemmas for the interaction graph. -/

theorem addNode_edges (G : NetGraph) (n : String) : (addNode G n).edges = G.edges := by
  unfold addNode
  split
  · rfl
  · rfl

theorem addEdge_nodes (G : NetGraph) (u v : String) (w : Nat) :
    (addEdge G u v w).nodes = G.nodes := by
  unfold addEdge
  split
  · rfl
  · rfl

theorem addNode_nodes_sub {G : NetGraph} {n x : String}
    (h : n ∈ (addNode G x).nodes) : n ∈ G.nodes ∨ n = x := by
  unfold addNode at h
  split at h
  · exact Or.inl h
  · rcases List.mem_append.mp h with h1 | h1
    · exact Or.inl h1
    · exact Or.inr (List.mem_singleton.mp h1)

theorem addEdge_append {G : NetGraph} {u v : String} {w : Nat}
    (h : G.edges.any (sameEdge u v) = false) :
    (addEdge G u v w).edges = G.edges ++ [(u, v, w)] := by
  unfold addEdge
  rw [if_neg (by rw [h]; exact Bool.false_ne_true)]

theorem addEdge_endpoint_stable {G : NetGraph} (u v : String) (w : Nat)
    {e : String × String × Nat} (he : e ∈ G.edges) :
    ∃ e2 ∈ (addEdge G u v w).edges, e2.1 = e.1 ∧ e2.2.1 = e.2.1 := by
  unfold addEdge
  split
  · refine ⟨if sameEdge u v e then (e.1, e.2.1, w) else e,
      List.mem_map_of_mem _ he, ?_⟩
    split
    · exact ⟨rfl, rfl⟩
    · exact ⟨rfl, rfl⟩
  · exact ⟨e, List.mem_append_left _ he, rfl, rfl⟩

theorem addEdge_has_uv (G : NetGraph) (u v : String) (w : Nat) :
    ∃ e ∈ (addEdge G u v w).edges, (e.1 = u ∧ e.2.1 = v) ∨ (e.1 = v ∧ e.2.1 = u) := by
  unfold addEdge
  split
  · rename_i hany
    obtain ⟨e0, he0, hse⟩ := List.any_eq_true.mp hany
    refine ⟨if sameEdge u v e0 then (e0.1, e0.2.1, w) else e0,
      List.mem_map_of_mem _ he0, ?_⟩
    rw [if_pos hse]
    unfold sameEdge at hse
    simp only [Bool.or_eq_true, Bool.and_eq_true, decide_eq_true_eq] at hse
    exact hse
  · exact ⟨(u, v, w), List.mem_append_right _ (by simp), Or.inl ⟨rfl, rfl⟩⟩

theorem decoAuthor_inj {a b : String} (h : decoAuthor a = decoAuthor b) : a = b := by
  unfold decoAuthor at h
  have h2 := congrArg String.data h
  rw [String.data_append, String.data_append] at h2
  have h3 := List.append_cancel_left h2
  cases a with
  | mk la =>
    cases b with
    | mk lb => exact congrArg String.mk h3

theorem decoSub_inj {a b : String} (h : decoSub a = decoSub b) : a = b := by
  unfold decoSub at h
  have h2 := congrArg String.data h
  rw [String.data_append, String.data_append] at h2
  have h3 := List.append_cancel_left h2
  cases a with
  | mk la =>
    cases b with
    | mk lb => exact congrArg String.mk h3

theorem decoAuthor_ne_decoSub (a s : String) : decoAuthor a ≠ decoSub s := by
  intro h
  have h1 : (decoAuthor a).data.head? = some '👤' := by
    unfold decoAuthor
    rw [String.data_append]
    rfl
  have h2 : (decoSub s).data.head? = some '📋' := by
    unfold decoSub
    rw [String.data_append]
    rfl
  rw [h, h2] at h1
  exact absurd (Option.some.inj h1) (by decide)

theorem sameEdge_deco_false (p q : (String × String) × Nat) (hne : ¬ p.1 = q.1) :
    sameEdge (decoAuthor p.1.1) (decoSub p.1.2)
      (decoAuthor q.1.1, decoSub q.1.2, q.2) = false := by
  unfold sameEdge
  refine Bool.or_eq_false_iff.mpr ⟨?_, ?_⟩
  · by_cases hau : q.1.1 = p.1.1
    · refine Bool.and_eq_false_iff.mpr (Or.inr (decide_eq_false ?_))
      intro hh
      exact hne (Prod.ext_iff.mpr ⟨hau, decoSub_inj hh⟩).symm
    · exact Bool.and_eq_false_iff.mpr
        (Or.inl (decide_eq_false (fun hh => hau (decoAuthor_inj hh))))
  · exact Bool.and_eq_false_iff.mpr
      (Or.inl (decide_eq_false (decoAuthor_ne_decoSub q.1.1 p.1.2)))

theorem buildFold_edges :
    ∀ (rows : List ((String × String) × Nat)) (G₀ : NetGraph),
      (rows.map Prod.fst).Nodup →
      (∀ r ∈ rows, ∀ e ∈ G₀.edges,
        sameEdge (decoAuthor r.1.1) (decoSub r.1.2) e = false) →
      (rows.foldl
        (fun G r =>
          addEdge (addNode (addNode G (decoAuthor r.1.1)) (decoSub r.1.2))
            (decoAuthor r.1.1) (decoSub r.1.2) r.2) G₀).edges
        = G₀.edges ++ rows.map (fun r => (decoAuthor r.1.1, decoSub r.1.2, r.2)) := by
  intro rows
  induction rows with
  | nil =>
    intro G₀ _ _
    simp
  | cons r rest ih =>
    intro G₀ hnodup hfresh
    rw [List.foldl_cons]
    have hG1edges : (addNode (addNode G₀ (decoAuthor r.1.1))
        (decoSub r.1.2)).edges = G₀.edges := by
      rw [addNode_edges, addNode_edges]
    have hany : ((addNode (addNode G₀ (decoAuthor r.1.1)) (decoSub r.1.2)).edges.any
        (sameEdge (decoAuthor r.1.1) (decoSub r.1.2))) = false := by
      rw [hG1edges]
      refine List.any_eq_false.mpr ?_
      intro e he hcontra
      rw [hfresh r (List.mem_cons_self r rest) e he] at hcontra
      exact Bool.false_ne_true hcontra
    have hstep : (addEdge (addNode (addNode G₀ (decoAuthor r.1.1)) (decoSub r.1.2))
        (decoAuthor r.1.1) (decoSub r.1.2) r.2).edges
        = G₀.edges ++ [(decoAuthor r.1.1, decoSub r.1.2, r.2)] := by
      rw [addEdge_append hany, hG1edges]
    have hnodup' := hnodup
    rw [List.map_cons, List.nodup_cons] at hnodup'
    obtain ⟨hnotin, hnodup2⟩ := hnodup'
    have hfresh2 : ∀ r2 ∈ rest,
        ∀ e ∈ (addEdge (addNode (addNode G₀ (decoAuthor r.1.1)) (decoSub r.1.2))
          (decoAuthor r.1.1) (decoSub r.1.2) r.2).edges,
        sameEdge (decoAuthor r2.1.1) (decoSub r2.1.2) e = false := by
      intro r2 hr2 e he
      rw [hstep] at he
      rcases List.mem_append.mp he with h1 | h1
      · exact hfresh r2 (List.mem_cons_of_mem r hr2) e h1
      · have he2 := List.mem_singleton.mp h1
        subst he2
        refine sameEdge_deco_false r2 r ?_
        intro hh
        exact hnotin (hh ▸ List.mem_map_of_mem Prod.fst hr2)
    rw [ih _ hnodup2 hfresh2, hstep, List.map_cons, List.append_assoc]
    rfl

theorem buildFold_nodes :
    ∀ (rows : List ((String × String) × Nat)) (G₀ : NetGraph),
      (∀ n ∈ G₀.nodes, ∃ e ∈ G₀.edges, n = e.1 ∨ n = e.2.1) →
      ∀ n ∈ (rows.foldl
        (fun G r =>
          addEdge (addNode (addNode G (decoAuthor r.1.1)) (decoSub r.1.2))
            (decoAuthor r.1.1) (decoSub r.1.2) r.2) G₀).nodes,
        ∃ e ∈ (rows.foldl
          (fun G r =>
            addEdge (addNode (addNode G (decoAuthor r.1.1)) (decoSub r.1.2))
              (decoAuthor r.1.1) (decoSub r.1.2) r.2) G₀).edges,
          n = e.1 ∨ n = e.2.1 := by
  intro rows
  induction rows with
  | nil =>
    intro G₀ hinv
    exact hinv
  | cons r rest ih =>
    intro G₀ hinv
    rw [List.foldl_cons]
    apply ih
    intro n hn
    rw [addEdge_nodes] at hn
    rcases addNode_nodes_sub hn with hn1 | hn1
    · rcases addNode_nodes_sub hn1 with hn2 | hn2
      · obtain ⟨e, he, hend⟩ := hinv n hn2
        have he1 : e ∈ (addNode (addNode G₀ (decoAuthor r.1.1))
            (decoSub r.1.2)).edges := by
          rw [addNode_edges, addNode_edges]
          exact he
        obtain ⟨e2, he2, hfst, hsnd⟩ :=
          addEdge_endpoint_stable (decoAuthor r.1.1) (decoSub r.1.2) r.2 he1
        rcases hend with hend | hend
        · exact ⟨e2, he2, Or.inl (by rw [hfst, ← hend])⟩
        · exact ⟨e2, he2, Or.inr (by rw [hsnd, ← hend])⟩
      · obtain ⟨e, he, hcase⟩ := addEdge_has_uv
          (addNode (addNode G₀ (decoAuthor r.1.1)) (decoSub r.1.2))
          (decoAuthor r.1.1) (decoSub r.1.2) r.2
        rcases hcase with ⟨h1, _⟩ | ⟨_, h2⟩
        · exact ⟨e, he, Or.inl (hn2.trans h1.symm)⟩
        · exact ⟨e, he, Or.inr (hn2.trans h2.symm)⟩
    · obtain ⟨e, he, hcase⟩ := addEdge_has_uv
        (addNode (addNode G₀ (decoAuthor r.1.1)) (decoSub r.1.2))
        (decoAuthor r.1.1) (decoSub r.1.2) r.2
      rcases hcase with ⟨_, h2⟩ | ⟨h1, _⟩
      · exact ⟨e, he, Or.inr (hn1.trans h2.symm)⟩
      · exact ⟨e, he, Or.inl (hn1.trans h1.symm)⟩

theorem pairCounts_spec {m : List Post} {r : (String × String) × Nat}
    (h : r ∈ pairCounts m) :
    r.2 = (m.map (fun p => (p.author, p.subreddit))).countP
        (fun x => decide (x = r.1)) ∧ 1 ≤ r.2 ∧
      r.1 ∈ m.map (fun p => (p.author, p.subreddit)) := by
  unfold pairCounts at h
  obtain ⟨h1, h2⟩ := List.mem_filter.mp h
  have h3 := (sortBy_perm _ _).mem_iff.mp h1
  obtain ⟨hc, hm⟩ := countBy_spec h3
  exact ⟨hc, by simpa using h2, hm⟩

theorem pairCounts_keys_nodup (m : List Post) :
    ((pairCounts m).map Prod.fst).Nodup := by
  unfold pairCounts
  have h1 : ((sortBy
      (fun a b => strLtB a.1.1 b.1.1 || (decide (a.1.1 = b.1.1) && strLtB a.1.2 b.1.2))
      (countBy (m.map (fun p => (p.author, p.subreddit))))).map Prod.fst).Nodup := by
    refine ((sortBy_perm _ _).map Prod.fst).nodup_iff.mpr ?_
    rw [countBy_keys]
    exact nodup_firstDedup _
  exact (List.Sublist.map Prod.fst (List.filter_sublist _)).nodup h1

theorem pairCounts_covers {m : List Post} {pr : String × String}
    (h : pr ∈ m.map (fun p => (p.author, p.subreddit))) :
    pr ∈ (pairCounts m).map Prod.fst := by
  unfold pairCounts
  have h1 : (pr, (m.map (fun p => (p.author, p.subreddit))).countP
        (fun x => decide (x = pr)))
      ∈ countBy (m.map (fun p => (p.author, p.subreddit))) :=
    List.mem_map.mpr ⟨pr, mem_firstDedup.mpr h, rfl⟩
  have h2 := (sortBy_perm
    (fun (a b : (String × String) × Nat) =>
      strLtB a.1.1 b.1.1 || (decide (a.1.1 = b.1.1) && strLtB a.1.2 b.1.2))
    (countBy (m.map (fun p => (p.author, p.subreddit))))).mem_iff.mpr h1
  have h3 : (pr, (m.map (fun p => (p.author, p.subreddit))).countP
        (fun x => decide (x = pr)))
      ∈ (sortBy
        (fun a b => strLtB a.1.1 b.1.1 || (decide (a.1.1 = b.1.1) && strLtB a.1.2 b.1.2))
        (countBy (m.map (fun p => (p.author, p.subreddit))))).filter
        (fun r => decide (1 ≤ r.2)) := by
    refine List.mem_filter.mpr ⟨h2, ?_⟩
    simp only [decide_eq_true_eq]
    exact List.countP_pos_iff.mpr ⟨pr, h, by simp⟩
  exact List.mem_map.mpr ⟨_, h3, rfl⟩

/-- C6: the interaction-graph construction picks the top-K authors and
top-M communities independently from the full filtered set, restricts to
posts hitting both lists, and emits exactly one edge per (author,
community) pair of the restriction, weighted by that pair's exact post
count in the restriction; no edge has weight 0, and every node of the
graph is an endpoint of some edge. -/
theorem C6_network_construction :
    ∀ (l : List Post) (kA kS : Nat),
      ((build_top_author_subreddit_network l kA kS).edges
        = (pairCounts (topRestriction l kA kS)).map
          (fun r => (decoAuthor r.1.1, decoSub r.1.2, r.2))) ∧
      (∀ r ∈ pairCounts (topRestriction l kA kS),
        r.2 = ((topRestriction l kA kS).map
          (fun p => (p.author, p.subreddit))).countP (fun x => decide (x = r.1)) ∧
        1 ≤ r.2) ∧
      ((pairCounts (topRestriction l kA kS)).map Prod.fst).Nodup ∧
      (∀ pr : String × String,
        pr ∈ (topRestriction l kA kS).map (fun p => (p.author, p.subreddit)) ↔
        pr ∈ (pairCounts (topRestriction l kA kS)).map Prod.fst) ∧
      (∀ n ∈ (build_top_author_subreddit_network l kA kS).nodes,
        ∃ e ∈ (build_top_author_subreddit_network l kA kS).edges,
          n = e.1 ∨ n = e.2.1) := by
  intro l kA kS
  refine ⟨?_, ?_, pairCounts_keys_nodup _, ?_, ?_⟩
  · by_cases hl : l.isEmpty = true
    · have hl2 : l = [] := List.isEmpty_iff.mp hl
      subst hl2
      rfl
    · by_cases hf : (topRestriction l kA kS).isEmpty = true
      · have hf2 : topRestriction l kA kS = [] := List.isEmpty_iff.mp hf
        unfold build_top_author_subreddit_network
        rw [if_neg hl, if_pos hf, hf2]
        rfl
      · unfold build_top_author_subreddit_network
        rw [if_neg hl, if_neg hf]
        have hres := buildFold_edges (pairCounts (topRestriction l kA kS))
          { nodes := [], edges := [] } (pairCounts_keys_nodup _)
          (fun r _ e he => absurd he (List.not_mem_nil e))
        rw [hres]
        rfl
  · intro r hr
    exact ⟨(pairCounts_spec hr).1, (pairCounts_spec hr).2.1⟩
  · intro pr
    constructor
    · exact fun h => pairCounts_covers h
    · intro h
      obtain ⟨r, hr, hfst⟩ := List.mem_map.mp h
      rw [← hfst]
      exact (pairCounts_spec hr).2.2
  · by_cases hl : l.isEmpty = true
    · have hl2 : l = [] := List.isEmpty_iff.mp hl
      subst hl2
      intro n hn
      cases hn
    · by_cases hf : (topRestriction l kA kS).isEmpty = true
      · have hb : build_top_author_subreddit_network l kA kS
            = { nodes := [], edges := [] } := by
          unfold build_top_author_subreddit_network
          rw [if_neg hl, if_pos hf]
        rw [hb]
        intro n hn
        cases hn
      · have hb : build_top_author_subreddit_network l kA kS
            = (pairCounts (topRestriction l kA kS)).foldl
              (fun G r =>
                addEdge (addNode (addNode G (decoAuthor r.1.1)) (decoSub r.1.2))
                  (decoAuthor r.1.1) (decoSub r.1.2) r.2)
              { nodes := [], edges := [] } := by
          unfold build_top_author_subreddit_network
          rw [if_neg hl, if_neg hf]
        rw [hb]
        exact buildFold_nodes (pairCounts (topRestriction l kA kS))
          { nodes := [], edges := [] }
          (fun n hn => absurd hn (List.not_mem_nil n))

/-- C6 witness: two posts by distinct authors in one community, with the
top-2 authors and top-1 community; both pairs become weight-1 edges and
the author node of "u1" is an edge endpoint. -/
theorem C6_network_construction_witness :
    ((1 : Nat) = ((topRestriction
        [⟨"a", "", "", "u1", "reddit", "s1", 0, 0, "", some 0, ""⟩,
         ⟨"b", "", "", "u2", "reddit", "s1", 0, 0, "", some 0, ""⟩] 2 1).map
        (fun p => (p.author, p.subreddit))).countP
        (fun x => decide (x = (("u1", "s1") : String × String))) ∧
      1 ≤ (1 : Nat)) ∧
    ∃ e ∈ (build_top_author_subreddit_network
        [⟨"a", "", "", "u1", "reddit", "s1", 0, 0, "", some 0, ""⟩,
         ⟨"b", "", "", "u2", "reddit", "s1", 0, 0, "", some 0, ""⟩] 2 1).edges,
      decoAuthor "u1" = e.1 ∨ decoAuthor "u1" = e.2.1 :=
  ⟨(C6_network_construction
      [⟨"a", "", "", "u1", "reddit", "s1", 0, 0, "", some 0, ""⟩,
       ⟨"b", "", "", "u2", "reddit", "s1", 0, 0, "", some 0, ""⟩] 2 1).2.1
    (("u1", "s1"), 1) (by decide),
   (C6_network_construction
      [⟨"a", "", "", "u1", "reddit", "s1", 0, 0, "", some 0, ""⟩,
       ⟨"b", "", "", "u2", "reddit", "s1", 0, 0, "", some 0, ""⟩] 2 1).2.2.2.2
    (decoAuthor "u1") (by decide)⟩

/-- C5 counterexample: on the empty filtered set, get_keyword_time_series
returns pd.DataFrame() — a frame with NO columns — while the non-empty
case carries columns [created_at, count, keyword]; likewise the empty
branch of get_top_contributors declares 3 columns against 5 in the
non-empty case. So not every aggregation keeps the non-empty shape. -/
theorem C5_empty_shape_counterexample :
    (getKeywordTimeSeries [] ["ai"]).cols = [] ∧
    (getKeywordTimeSeries
      [⟨"a", "", "", "u", "reddit", "s", 0, 0, "", some 0, "ai talk"⟩]
      ["ai"]).cols = ["created_at", "count", "keyword"] ∧
    ¬ ((getKeywordTimeSeries [] ["ai"]).cols
      = (getKeywordTimeSeries
        [⟨"a", "", "", "u", "reddit", "s", 0, 0, "", some 0, "ai talk"⟩]
        ["ai"]).cols) ∧
    (getTopContributors [] 10).cols = ["author", "post_count", "percentage"] ∧
    (getTopContributors
      [⟨"a", "", "", "u", "reddit", "s", 0, 0, "", some 0, "ai talk"⟩] 10).cols
      = ["author", "post_count", "avg_score", "total_comments", "percentage"] ∧
    ¬ ((getTopContributors [] 10).cols
      = (getTopContributors
        [⟨"a", "", "", "u", "reddit", "s", 0, 0, "", some 0, "ai talk"⟩] 10).cols) := by
  refine ⟨by decide, by decide, by decide, by decide, by decide, by decide⟩

/-- C5 (amended): on the empty filtered set every aggregation operation
returns — without any exception path, all the embedded operations being
total — a deterministic empty or zero-valued result: summary stats with
zero counts and the "No data" marker, empty time series, empty keyword
list, empty keyword-time-series frame, empty contributor frame, the
0-row weekly rhythm, the empty graph, and all-zero graph statistics. The
keyword-time-series frame however has no columns (vs 3 in the non-empty
shape) and the contributor frame has 3 columns (vs 5), so two of the
eight results do not share the non-empty case's column shape. -/
theorem C5_empty_input_results :
    ∀ (n : Nat) (kws : List String) (kA kS : Nat),
      getSummaryStats [] = ⟨0, 0, 0, "No data", 0, 0⟩ ∧
      getTimeSeriesData [] = [] ∧
      getTopKeywords [] n = [] ∧
      getKeywordTimeSeries [] kws = ⟨[], []⟩ ∧
      getTopContributors [] n = ⟨["author", "post_count", "percentage"], []⟩ ∧
      getWeeklyPostingRhythm [] = [] ∧
      build_top_author_subreddit_network [] kA kS = ⟨[], []⟩ ∧
      getNetworkStats ⟨[], []⟩ = ⟨0, 0, 0, 0, 0⟩ := by
  intro n kws kA kS
  exact ⟨rfl, rfl, rfl, rfl, rfl, rfl, rfl, rfl⟩
